import Mathlib

/-!
# Red packet system: the grab pipeline and the retry primitive

Shallow embedding of `service/red_packet_service.go` (the Lua stock script and
`GrabRedPacket`), of `kafka/utils.go` (`retryWithBackoff`), of `kafka/producer.go` (the
message of `SendToKafka`) and of `kafka/consumer.go` (`processKafkaMessage`,
`updateUserBalance`).

Modelling conventions.
* Amounts (Go `float64`) are exact rationals. A division by a zero count yields NaN or an
  infinity in Go, which is no amount (`shareOf` is `none` there); a `double` column cannot
  hold such a value, so the `UPDATE` that would write it is refused.
* Go `int` counters are integers; the counts of this program stay far from the 64-bit bounds.
* The Redis counter key `red_packet_<id>` is identified with the packet id; the lock key and
  the bloom key live under other prefixes and are seen only through the outcome of the call.
* Table `red_packets` is a finite map from the primary key to the remaining columns; audit
  timestamps and key expiry (TTL) are outside the model. Reads see the rows as last
  committed: the replica that serves `First` is taken to be in step with the master.
* Every call to Redis or MySQL whose error the code inspects has its outcome supplied by an
  `Env`; `Set` and `Incr`, whose errors the code never inspects, take effect when `Env` says so.
-/

namespace RedPacketSystem

/-! ## Data model -/

/-- Row of `red_packets` (model.RedPacket) without its primary key and timestamps. -/
structure RedPacket where
  TotalAmount : ℚ
  RemainingAmount : ℚ
  TotalCount : Int
  RemainingCount : Int
  Status : Int

/-- Row of `red_packet_logs` (model.RedPacketLog) without its own key and timestamps. -/
structure RedPacketLog where
  UserID : Nat
  RedPacketID : Nat
  Amount : ℚ

/-- Redis stock counters, by packet id (key `red_packet_<id>`). -/
abbrev Cache := Nat → Option Int

/-- Redis `GET key`. -/
def Cache.GET (c : Cache) (key : Nat) : Option Int := c key

/-- Redis `SET key value`. -/
def Cache.SET (c : Cache) (key : Nat) (value : Int) : Cache :=
  Function.update c key (some value)

/-- Redis `DECR key`: an absent key counts as 0. -/
def Cache.DECR (c : Cache) (key : Nat) : Cache :=
  Function.update c key (some ((c key).getD 0 - 1))

/-- Redis `INCR key`: an absent key counts as 0. -/
def Cache.INCR (c : Cache) (key : Nat) : Cache :=
  Function.update c key (some ((c key).getD 0 + 1))

/-- The Lua script of `luaScript`, run atomically on the counters: the returned number and the
counters afterwards. -/
def luaScript (c : Cache) (key : Nat) : Int × Cache :=
  match c.GET key with
  | none => (-2, c)
  | some stock =>
    if stock ≤ 0 then (-1, c)
    else (stock - 1, c.DECR key)

/-- Cache and ledger as one state. -/
structure State where
  cache : Cache
  packets : Nat → Option RedPacket
  logs : List RedPacketLog

/-- Outcome of the external calls of one `GrabRedPacket` (true: the call succeeds);
`bloomExists` is what `ExistsInBloomFilter` returns, which is true also when its `EXISTS`
query fails. -/
structure Env where
  bloomExists : Bool
  lockOk : Bool
  luaOk : Bool
  firstReadOk : Bool
  setOk : Bool
  secondReadOk : Bool
  beginOk : Bool
  updateOk : Bool
  createOk : Bool
  commitOk : Bool
  incrOk : Bool

/-- Environment in which no call fails. -/
def Env.ok : Env :=
  ⟨true, true, true, true, true, true, true, true, true, true, true⟩

/-- The errors `GrabRedPacket` returns. -/
inductive GrabError
  | notExist
  | busy
  | systemError
  | empty
  | updateFailed
  | logFailed
  | txFailed
  deriving DecidableEq

/-- Text of each error; `txFailed` stands for the driver error of Begin or Commit. -/
def GrabError.message : GrabError → String
  | .notExist => "red packet does not exist"
  | .busy => "system is busy, please try again later"
  | .systemError => "system error"
  | .empty => "red packet is empty"
  | .updateFailed => "red packet update failed"
  | .logFailed => "failed to log red packet grab"
  | .txFailed => "transaction error"

/-- Go conversion `int64(x)` of a `uint`. -/
def toInt64 (x : Nat) : Int :=
  if x % 2 ^ 64 < 2 ^ 63 then (x % 2 ^ 64 : Nat) else (x % 2 ^ 64 : Nat) - 2 ^ 64

/-- Arguments of the detached `kafka.SendToKafka` call. -/
structure KafkaCall where
  userID : Int
  redPacketID : Int
  amount : ℚ

/-- What one call leaves behind: the returned pair, the state, the event handed over. -/
structure Outcome where
  result : Except GrabError ℚ
  state : State
  event : Option KafkaCall

/-- `First(&redPacket, id)`: a failed query and a missing row both give an error. -/
def readPacket (ok : Bool) (s : State) (id : Nat) : Option RedPacket :=
  if ok then s.packets id else none

/-- `redisClient.Set(ctx, key, value, ttl)`, its error ignored. -/
def cacheSet (ok : Bool) (c : Cache) (key : Nat) (value : Int) : Cache :=
  if ok then c.SET key value else c

/-- `redisClient.Incr(ctx, key)`, its error ignored. -/
def cacheIncr (ok : Bool) (c : Cache) (key : Nat) : Cache :=
  if ok then c.INCR key else c

/-- `UPDATE red_packets SET remaining_amount = a, remaining_count = n WHERE id = id`. -/
def updatePacket (packets : Nat → Option RedPacket) (id : Nat) (a : ℚ) (n : Int) :
    Nat → Option RedPacket :=
  Function.update packets id
    ((packets id).map fun row => { row with RemainingAmount := a, RemainingCount := n })

/-- Line 103, `RemainingAmount / float64(RemainingCount)`: with a count of 0 the quotient is
NaN or an infinity, no amount. -/
def shareOf (redPacket : RedPacket) : Option ℚ :=
  if redPacket.RemainingCount = 0 then none
  else some (redPacket.RemainingAmount / (redPacket.RemainingCount : ℚ))

/-- Body of the function passed to `Transaction`: the error it returns, or the amount written
when both writes went through, with the counters (Redis is not part of the transaction) and
the tentative ledger. An `UPDATE` that would write a quotient that is no amount is refused,
like one that fails for another reason. -/
def txBody (env : Env) (s : State) (userID redPacketID : Nat) (redPacket : RedPacket)
    (amount : Option ℚ) : Except GrabError ℚ × State :=
  match amount with
  | none =>
    (.error .updateFailed, { s with cache := cacheIncr env.incrOk s.cache redPacketID })
  | some a =>
    if !env.updateOk then
      (.error .updateFailed, { s with cache := cacheIncr env.incrOk s.cache redPacketID })
    else
      let packets := updatePacket s.packets redPacketID
        (redPacket.RemainingAmount - a) (redPacket.RemainingCount - 1)
      if !env.createOk then
        (.error .logFailed,
          { s with cache := cacheIncr env.incrOk s.cache redPacketID, packets := packets })
      else
        (.ok a, { s with packets := packets, logs := s.logs ++ [⟨userID, redPacketID, a⟩] })

/-- `dbInstance.Transaction(fn)`: Begin, the body, then Commit; on any error the ledger is the
one before, the counters keep what the body did to them. -/
def transaction (env : Env) (s : State) (userID redPacketID : Nat) (redPacket : RedPacket)
    (amount : Option ℚ) : Except GrabError ℚ × State :=
  if !env.beginOk then (.error .txFailed, s)
  else
    match txBody env s userID redPacketID redPacket amount with
    | (.error e, s1) => (.error e, { s with cache := s1.cache })
    | (.ok a, s1) =>
      if !env.commitOk then (.error .txFailed, { s with cache := s1.cache })
      else (.ok a, s1)

/-- Lines 94 to 145 of `GrabRedPacket`: re-read, amount, transaction, event. -/
def allocate (env : Env) (s : State) (userID redPacketID : Nat) : Outcome :=
  match readPacket env.secondReadOk s redPacketID with
  | none =>
    ⟨.error .notExist, { s with cache := cacheIncr env.incrOk s.cache redPacketID }, none⟩
  | some redPacket =>
    match transaction env s userID redPacketID redPacket (shareOf redPacket) with
    | (.error e, s1) =>
      ⟨.error e, { s1 with cache := cacheIncr env.incrOk s1.cache redPacketID }, none⟩
    | (.ok amount, s1) =>
      ⟨.ok amount, s1, some ⟨toInt64 userID, toInt64 redPacketID, amount⟩⟩

/-- Lines 88 to 92: the stock guard on `result`, then allocation. -/
def guardStock (env : Env) (s : State) (result : Int) (userID redPacketID : Nat) : Outcome :=
  if result ≤ 0 then ⟨.error .empty, s, none⟩
  else allocate env s userID redPacketID

/-- `GrabRedPacket(userID, redPacketID)` on state `s` under the call outcomes `env`. -/
def GrabRedPacket (env : Env) (s : State) (userID redPacketID : Nat) : Outcome :=
  if !env.bloomExists then ⟨.error .notExist, s, none⟩
  else if !env.lockOk then ⟨.error .busy, s, none⟩
  else if !env.luaOk then ⟨.error .systemError, s, none⟩
  else
    let (result, cache1) := luaScript s.cache redPacketID
    let s1 : State := { s with cache := cache1 }
    if result = -1 then ⟨.error .empty, s1, none⟩
    else if result = -2 then
      match readPacket env.firstReadOk s1 redPacketID with
      | none => ⟨.error .notExist, { s1 with cache := cacheSet env.setOk s1.cache redPacketID 0 }, none⟩
      | some redPacket =>
        let s2 : State :=
          { s1 with cache := cacheSet env.setOk s1.cache redPacketID redPacket.RemainingCount }
        guardStock env s2 redPacket.RemainingCount userID redPacketID
    else guardStock env s1 result userID redPacketID

/-- Sum of the amounts logged for a packet. -/
def logSum (logs : List RedPacketLog) (id : Nat) : ℚ :=
  ((logs.filter fun l => l.RedPacketID = id).map fun l => l.Amount).sum

/-- Number of rows logged for a packet. -/
def logCount (logs : List RedPacketLog) (id : Nat) : Int :=
  ((logs.filter fun l => l.RedPacketID = id).length : Nat)

/-! ## Concrete states, runs and the retry loop -/

/-- The ledger a committed transaction leaves. -/
def committed (s : State) (userID redPacketID : Nat) (row : RedPacket) (amount : ℚ) : State :=
  { s with
    packets := updatePacket s.packets redPacketID
      (row.RemainingAmount - amount) (row.RemainingCount - 1)
    logs := s.logs ++ [⟨userID, redPacketID, amount⟩] }

/-- A packet as `SeedRedPackets` creates it: nothing granted yet, status active. -/
def seeded (T : ℚ) (N : Int) : RedPacket :=
  ⟨T, T, N, N, 1⟩

/-- State with one seeded packet `id`, no counter in the cache and an empty log. -/
def freshState (id : Nat) (T : ℚ) (N : Int) : State :=
  ⟨fun _ => none, fun j => if j = id then some (seeded T N) else none, []⟩

/-- State after the calls `GrabRedPacket(user, p)` of the list, one after the other, each
with its own call outcomes. -/
def runGrabs (s : State) (p : Nat) (calls : List (Env × Nat)) : State :=
  calls.foldl (fun st c => (GrabRedPacket c.1 st c.2 p).state) s

/-- Where a packet seeded with amount `T` and `N` shares stands after `k` failure-free calls:
up to `N` calls each took `T / N` and the counter is one ahead of the ledger; from the call
after that on the counter is 0 and the ledger rests. -/
def Progress (p : Nat) (row : RedPacket) (T : ℚ) (N : Int) (k : Nat) (st : State) : Prop :=
  if (k : Int) ≤ N then
    st.packets p = some { row with RemainingAmount := T - k * (T / N), RemainingCount := N - k } ∧
    (k = 0 → st.cache p = none) ∧ (1 ≤ k → st.cache p = some (N - k + 1))
  else
    st.packets p = some { row with RemainingAmount := T - N * (T / N), RemainingCount := 0 } ∧
    st.cache p = some 0

/-- State with one packet row `id`, its counter `c` (if any) and a log. -/
def stateWith (id : Nat) (c : Option Int) (row : RedPacket) (logs : List RedPacketLog) : State :=
  ⟨fun j => if j = id then c else none, fun j => if j = id then some row else none, logs⟩

/-- The row of a packet of 100 in one share once that share is granted. -/
def spent : RedPacket :=
  ⟨100, 0, 1, 0, 1⟩

/-- A packet of 30 in 3 shares after its first grant. -/
def oneTaken : RedPacket :=
  ⟨30, 20, 3, 2, 1⟩

/-- What `retryWithBackoff` returns besides nil: `ctx.Err()` or the last error of the
operation. -/
inductive RetryError (ε : Type)
  | ctx
  | op (e : ε)

/-- One run of `retryWithBackoff`: the returned error (`none` is nil), the state the operation
left, the result of every invocation of the operation in order (`none` is nil), and the
sleeps made, in milliseconds. -/
structure RetryRun (σ ε : Type) where
  err : Option (RetryError ε)
  state : σ
  attempts : List (Option ε)
  slept : List Nat

/-- The `for i := 0; i < maxKafkaRetries; i++` loop with `fuel` iterations to go; `done i`
tells whether `ctx.Done()` is ready at the check of iteration `i`. -/
def retryLoop {σ ε : Type} (done : Nat → Bool) (operation : σ → Option ε × σ) :
    Nat → Nat → Option ε → Nat → σ → List (Option ε) → List Nat → RetryRun σ ε
  | 0, _, err, _, s, attempts, slept => ⟨err.map RetryError.op, s, attempts, slept⟩
  | fuel + 1, i, _, backoff, s, attempts, slept =>
    if done i then ⟨some RetryError.ctx, s, attempts, slept⟩
    else
      match operation s with
      | (none, s1) => ⟨none, s1, attempts ++ [none], slept⟩
      | (some e, s1) =>
        retryLoop done operation fuel (i + 1) (some e) (backoff * 2) s1
          (attempts ++ [some e]) (slept ++ [backoff])

/-- `retryWithBackoff(ctx, operation, maxKafkaRetries)`: `err` starts as nil, the backoff at
100 ms. -/
def retryWithBackoff {σ ε : Type} (done : Nat → Bool) (operation : σ → Option ε × σ)
    (maxKafkaRetries : Int) (s : σ) : RetryRun σ ε :=
  retryLoop done operation maxKafkaRetries.toNat 0 none 100 s [] []

/-- A context that is never cancelled. -/
def neverDone : Nat → Bool :=
  fun _ => false

/-- An operation that fails on its first two invocations and then succeeds; the state counts
the invocations. -/
def failsTwice : Nat → Option String × Nat :=
  fun k => (if k < 2 then some "unavailable" else none, k + 1)

/-- An operation that always fails. -/
def alwaysFails : Nat → Option String × Nat :=
  fun k => (some "unavailable", k + 1)

/-! ## Events: the producer message and the consumer

Go strings are lists of characters. `strconv.ParseUint` and the `%d` and `%.2f` verbs of
`fmt.Sprintf` are written out from their Go definitions; `strconv.ParseFloat` is a parameter
of the consumer, and `parseDecimal` reads the plain decimal literals that `%.2f` prints. -/

/-- Decimal digit `d` as a character. -/
def digitChar (d : Nat) : Char :=
  Char.ofNat (48 + d)

/-- Decimal text of a natural number, most significant digit first. -/
def fmtNat (n : Nat) : List Char :=
  if n = 0 then ['0'] else (Nat.digits 10 n).reverse.map digitChar

/-- Verb `%d` on an `int64`. -/
def formatInt (i : Int) : List Char :=
  if i < 0 then '-' :: fmtNat i.natAbs else fmtNat i.toNat

/-- Absolute value in hundredths, rounded to the nearest one, a tie going to the even one. -/
def hundredths (a : ℚ) : Nat :=
  let f := ⌊|a| * 100⌋₊
  let r := |a| * 100 - (f : ℚ)
  if r < 1 / 2 then f
  else if 1 / 2 < r then f + 1
  else if f % 2 = 0 then f else f + 1

/-- The number that the `%.2f` text of `a` denotes. -/
def roundCents (a : ℚ) : ℚ :=
  if a < 0 then -((hundredths a : ℚ) / 100) else (hundredths a : ℚ) / 100

/-- Verb `%.2f` on an amount: sign, integer part, point, two decimals. -/
def formatFixed2 (a : ℚ) : List Char :=
  (if a < 0 then ['-'] else []) ++ fmtNat (hundredths a / 100) ++
    ['.', digitChar (hundredths a % 100 / 10), digitChar (hundredths a % 10)]

/-- Go conversion `int32(x)`. -/
def toInt32 (x : Int) : Int :=
  if x % 2 ^ 32 < 2 ^ 31 then x % 2 ^ 32 else x % 2 ^ 32 - 2 ^ 32

/-- The `sarama.ProducerMessage` of `SendToKafka`. -/
structure ProducerMessage where
  Topic : String
  Partition : Int
  Value : List Char

/-- Lines 49 to 54 of `SendToKafka`: the message built for `(userID, redPacketID, amount)`;
`%` on `int64` truncates towards zero. -/
def producerMessage (userID redPacketID : Int) (amount : ℚ) : ProducerMessage :=
  { Topic := "red_packet_transactions"
    Partition := toInt32 (Int.tmod userID 5)
    Value := formatInt userID ++ [','] ++ formatInt redPacketID ++ [','] ++
      formatFixed2 amount }

/-- `SendToKafka(userID, redPacketID, amount)`: up to 3 attempts to hand the message to the
broker; `sendOk k` tells whether the `k`-th `SendMessage` succeeds, the state is the broker
log with the number of sends made. The producer is configured (lines 26 to 30) without a
manual partitioner, so the partition a message is filed under is the one the client's
partitioner picks at the send, `partitioner k`, not the field as built. -/
def SendToKafka (done : Nat → Bool) (sendOk : Nat → Bool) (partitioner : Nat → Int)
    (userID redPacketID : Int) (amount : ℚ) (broker : List ProducerMessage) :
    RetryRun (List ProducerMessage × Nat) Unit :=
  retryWithBackoff done
    (fun st =>
      if sendOk st.2 then
        (none,
          (st.1 ++ [{ producerMessage userID redPacketID amount with
            Partition := partitioner st.2 }], st.2 + 1))
      else (some (), (st.1, st.2 + 1)))
    3 (broker, 0)

/-- `strings.Split(s, sep)` for a one-character separator. -/
def splitOn (sep : Char) : List Char → List (List Char)
  | [] => [[]]
  | c :: cs =>
    if c = sep then [] :: splitOn sep cs
    else
      match splitOn sep cs with
      | [] => [[c]]
      | f :: fs => (c :: f) :: fs

/-- Value of a decimal digit character, if it is one. -/
def digitVal (c : Char) : Option Nat :=
  if c.isDigit then some (c.toNat - 48) else none

/-- The loop of `strconv.ParseUint(s, 10, 64)` over the characters, `n` being the number read
so far: a character that is no digit is a syntax error, a value of 2^64 or more a range
error. -/
def parseUintLoop : List Char → Nat → Option Nat
  | [], n => some n
  | c :: cs, n =>
    match digitVal c with
    | none => none
    | some d => if n * 10 + d < 2 ^ 64 then parseUintLoop cs (n * 10 + d) else none

/-- `strconv.ParseUint(s, 10, 64)`: the empty string is a syntax error. -/
def ParseUint (s : List Char) : Option Nat :=
  if s = [] then none else parseUintLoop s 0

/-- A non-empty string of decimal digits. -/
def isUnsignedDecimal (s : List Char) : Bool :=
  !s.isEmpty && s.all Char.isDigit

/-- A string of decimal digits read as a number, without any bound. -/
def readDigits : List Char → Nat → Option Nat
  | [], n => some n
  | c :: cs, n =>
    match digitVal c with
    | none => none
    | some d => readDigits cs (n * 10 + d)

/-- Leading sign of a literal: whether it is `-`, and the rest. -/
def stripSign : List Char → Bool × List Char
  | [] => (false, [])
  | c :: r => if c = '-' then (true, r) else if c = '+' then (false, r) else (false, c :: r)

/-- Reader of plain decimal literals `[+-]digits[.digits]`, the form `%.2f` prints; it stands
in for `strconv.ParseFloat` on such literals. -/
def parseDecimal (s : List Char) : Option ℚ :=
  let signed := stripSign s
  let value : Option ℚ :=
    match splitOn '.' signed.2 with
    | [ip] => if ip = [] then none else (readDigits ip 0).map fun n => (n : ℚ)
    | [ip, fp] =>
      if ip = [] ∧ fp = [] then none
      else
        match readDigits ip 0, readDigits fp 0 with
        | some n, some m => some ((n : ℚ) + (m : ℚ) / 10 ^ fp.length)
        | _, _ => none
    | _ => none
  value.map fun v => if signed.1 then -v else v

/-- Row of `users` (model.User) without its primary key and timestamps. -/
structure User where
  Username : String
  Balance : ℚ

/-- Outcome of the database calls of one `updateUserBalance` (true: the call succeeds);
`dbReady` is `dbInstance != nil`. -/
structure DbEnv where
  dbReady : Bool
  firstOk : Bool
  updateOk : Bool

/-- Database environment in which no call fails. -/
def DbEnv.ok : DbEnv :=
  ⟨true, true, true⟩

/-- The errors `updateUserBalance` returns. -/
inductive UpdateError
  | notInitialized
  | userNotFound
  | updateFailed
  deriving DecidableEq

/-- `updateUserBalance(userID, redPacketID, amount)` on the table `users`. -/
def updateUserBalance (env : DbEnv) (users : Nat → Option User) (userID _redPacketID : Nat)
    (amount : ℚ) : Option UpdateError × (Nat → Option User) :=
  if !env.dbReady then (some .notInitialized, users)
  else
    match (if env.firstOk then users userID else none) with
    | none => (some .userNotFound, users)
    | some user =>
      let balance := user.Balance + amount
      if !env.updateOk then (some .updateFailed, users)
      else (none, Function.update users userID (some { user with Balance := balance }))

/-- How `processKafkaMessage` ends: the two early returns, the failure logged after the
retries, or the credit logged. -/
inductive Processed
  | formatError
  | parseError
  | failed (e : RetryError UpdateError)
  | credited (userID redPacketID : Nat) (amount : ℚ)

/-- One run of `processKafkaMessage`: how it ended, the table `users` afterwards and the
number of invocations of `updateUserBalance`. -/
structure ConsumerRun where
  outcome : Processed
  users : Nat → Option User
  invocations : Nat

/-- `processKafkaMessage(msg)` on the payload `value`; `parseFloat` is
`strconv.ParseFloat(s, 64)`, `done` the 5-second context, `db k` the outcomes of the database
calls of the `k`-th invocation of `updateUserBalance`. -/
def processKafkaMessage (parseFloat : List Char → Option ℚ) (done : Nat → Bool)
    (db : Nat → DbEnv) (users : Nat → Option User) (value : List Char) : ConsumerRun :=
  match splitOn ',' value with
  | [f0, f1, f2] =>
    match ParseUint f0, ParseUint f1, parseFloat f2 with
    | some userID, some redPacketID, some amount =>
      let run := retryWithBackoff done
        (fun st : (Nat → Option User) × Nat =>
          let r := updateUserBalance (db st.2) st.1 userID redPacketID amount
          (r.1, (r.2, st.2 + 1)))
        3 (users, 0)
      match run.err with
      | some e => ⟨.failed e, run.state.1, run.state.2⟩
      | none => ⟨.credited userID redPacketID amount, run.state.1, run.state.2⟩
    | _, _, _ => ⟨.parseError, users, 0⟩
  | _ => ⟨.formatError, users, 0⟩

/-- Table `users` with the single row `id`, of the given balance. -/
def oneUser (id : Nat) (balance : ℚ) : Nat → Option User :=
  fun j => if j = id then some ⟨"user", balance⟩ else none

/-- Table `users` without any row. -/
def noUser : Nat → Option User :=
  fun _ => none

/-- Database outcomes in which no call of any invocation fails. -/
def dbOk : Nat → DbEnv :=
  fun _ => DbEnv.ok

/-- State after the calls `GrabRedPacket(user, packet)` of the list, one after the other, each
with its own call outcomes, user and packet. -/
def runCalls (s : State) (calls : List (Env × Nat × Nat)) : State :=
  calls.foldl (fun st c => (GrabRedPacket c.1 st c.2.1 c.2.2).state) s

/-- Packet `p` has a row whose `remaining_count` is not negative and, added to the number of
log rows of `p`, gives `N`. -/
def CountSound (p : Nat) (N : Int) (st : State) : Prop :=
  ∃ r, st.packets p = some r ∧ 0 ≤ r.RemainingCount ∧
    logCount st.logs p + r.RemainingCount = N

/-! ## The stock script -/

/-- C9: on an absent key the script returns -2 and changes nothing; on a counter at most 0 it
returns -1 and changes nothing; on a counter `v` of at least 1 it stores `v - 1` under the key,
returns `v - 1` and touches no other key; so the returned number is at least 0 exactly when
the counter was positive and has been decremented. -/
theorem luaScript_spec (c : Cache) (key : Nat) :
    (c key = none → luaScript c key = (-2, c)) ∧
    (∀ v, c key = some v → v ≤ 0 → luaScript c key = (-1, c)) ∧
    (∀ v, c key = some v → 1 ≤ v →
      (luaScript c key).1 = v - 1 ∧ (luaScript c key).2 key = some (v - 1) ∧
      ∀ k, k ≠ key → (luaScript c key).2 k = c k) ∧
    (0 ≤ (luaScript c key).1 ↔
      ∃ v, c key = some v ∧ 1 ≤ v ∧ (luaScript c key).2 key = some (v - 1)) := by
  refine ⟨?_, ?_, ?_, ?_⟩
  · intro h
    simp [luaScript, Cache.GET, h]
  · intro v h hv
    simp [luaScript, Cache.GET, h, hv]
  · intro v h hv
    have hv' : ¬ v ≤ 0 := by omega
    refine ⟨?_, ?_, ?_⟩
    · simp [luaScript, Cache.GET, h, hv']
    · simp [luaScript, Cache.GET, Cache.DECR, h, hv']
    · intro k hk
      simp [luaScript, Cache.GET, Cache.DECR, h, hv', Function.update_noteq hk]
  · cases h : c key with
    | none => simp [luaScript, Cache.GET, h]
    | some v =>
      by_cases hv : v ≤ 0
      · have hv1 : ¬ 1 ≤ v := by omega
        simp [luaScript, Cache.GET, h, hv, hv1]
      · have hv1 : 1 ≤ v := by omega
        simp [luaScript, Cache.GET, Cache.DECR, h, hv, hv1]

/-! ## One grab: the ledger after a success -/

theorem transaction_ok (env : Env) (s s1 : State) (userID redPacketID : Nat)
    (row : RedPacket) (amount : Option ℚ) (a : ℚ)
    (h : transaction env s userID redPacketID row amount = (.ok a, s1)) :
    amount = some a ∧ s1 = committed s userID redPacketID row a := by
  unfold transaction txBody at h
  cases amount with
  | none => cases hb : env.beginOk <;> simp [hb] at h
  | some x =>
    cases hb : env.beginOk <;> cases hu : env.updateOk <;> cases hc : env.createOk <;>
      cases hm : env.commitOk <;> simp [hb, hu, hc, hm] at h
    obtain ⟨hx, hs⟩ := h
    subst hx
    exact ⟨rfl, by rw [← hs]; rfl⟩

theorem transaction_error (env : Env) (s s1 : State) (userID redPacketID : Nat)
    (row : RedPacket) (amount : Option ℚ) (e : GrabError)
    (h : transaction env s userID redPacketID row amount = (.error e, s1)) :
    s1.packets = s.packets ∧ s1.logs = s.logs := by
  unfold transaction txBody at h
  cases amount with
  | none =>
    cases hb : env.beginOk <;> simp [hb] at h <;> (rw [← h.2]; exact ⟨rfl, rfl⟩)
  | some x =>
    cases hb : env.beginOk <;> cases hu : env.updateOk <;> cases hc : env.createOk <;>
      cases hm : env.commitOk <;> simp [hb, hu, hc, hm] at h <;>
      (rw [← h.2]; exact ⟨rfl, rfl⟩)

theorem shareOf_some (row : RedPacket) (a : ℚ) (h : shareOf row = some a) :
    row.RemainingCount ≠ 0 ∧ a = row.RemainingAmount / (row.RemainingCount : ℚ) := by
  unfold shareOf at h
  by_cases h0 : row.RemainingCount = 0
  · simp [h0] at h
  · simp only [h0, if_false, Option.some.injEq] at h
    exact ⟨h0, h.symm⟩

theorem shareOf_pos (row : RedPacket) (h : row.RemainingCount ≠ 0) :
    shareOf row = some (row.RemainingAmount / (row.RemainingCount : ℚ)) := by
  simp [shareOf, h]

theorem allocate_ok (env : Env) (s : State) (userID redPacketID : Nat) (amount : ℚ)
    (h : (allocate env s userID redPacketID).result = .ok amount) :
    ∃ row, s.packets redPacketID = some row ∧
      amount = row.RemainingAmount / (row.RemainingCount : ℚ) ∧
      (allocate env s userID redPacketID).state = committed s userID redPacketID row amount ∧
      row.RemainingCount ≠ 0 := by
  unfold allocate at h ⊢
  cases hr : readPacket env.secondReadOk s redPacketID with
  | none => simp [hr] at h
  | some row =>
    have hrow : s.packets redPacketID = some row := by
      unfold readPacket at hr
      cases hk : env.secondReadOk <;> simp [hk] at hr
      exact hr
    rcases ht : transaction env s userID redPacketID row (shareOf row) with ⟨r, s1⟩
    cases r with
    | error e => simp [hr, ht] at h
    | ok a =>
      simp only [hr, ht] at h ⊢
      have ha : a = amount := by simpa using h
      subst ha
      obtain ⟨hshare, hs1⟩ := transaction_ok env s s1 userID redPacketID row _ a ht
      obtain ⟨hne, hq⟩ := shareOf_some row a hshare
      exact ⟨row, hrow, hq, hs1, hne⟩

theorem allocate_error (env : Env) (s : State) (userID redPacketID : Nat) (e : GrabError)
    (h : (allocate env s userID redPacketID).result = .error e) :
    (allocate env s userID redPacketID).state.packets = s.packets ∧
    (allocate env s userID redPacketID).state.logs = s.logs := by
  unfold allocate at h ⊢
  cases hr : readPacket env.secondReadOk s redPacketID with
  | none => exact ⟨rfl, rfl⟩
  | some row =>
    rcases ht : transaction env s userID redPacketID row (shareOf row) with ⟨r, s1⟩
    cases r with
    | error e1 =>
      simp only [hr, ht]
      exact transaction_error env s s1 userID redPacketID row _ e1 ht
    | ok a => simp [hr, ht] at h

theorem guardStock_ok (env : Env) (s : State) (result : Int) (userID redPacketID : Nat)
    (amount : ℚ) (h : (guardStock env s result userID redPacketID).result = .ok amount) :
    0 < result ∧ ∃ row, s.packets redPacketID = some row ∧
      amount = row.RemainingAmount / (row.RemainingCount : ℚ) ∧
      (guardStock env s result userID redPacketID).state =
        committed s userID redPacketID row amount ∧
      row.RemainingCount ≠ 0 := by
  unfold guardStock at h ⊢
  by_cases hres : result ≤ 0
  · simp [hres] at h
  · simp only [hres, if_false] at h ⊢
    exact ⟨by omega, allocate_ok env s userID redPacketID amount h⟩

theorem guardStock_error (env : Env) (s : State) (result : Int) (userID redPacketID : Nat)
    (e : GrabError) (h : (guardStock env s result userID redPacketID).result = .error e) :
    (guardStock env s result userID redPacketID).state.packets = s.packets ∧
    (guardStock env s result userID redPacketID).state.logs = s.logs := by
  unfold guardStock at h ⊢
  by_cases hres : result ≤ 0
  · simp [hres]
  · simp only [hres, if_false] at h ⊢
    exact allocate_error env s userID redPacketID e h

/-- A successful grab commits exactly one transaction on the row it read, whose count is not
0; the counters are the only other part of the state that may differ. -/
theorem grab_ok (env : Env) (s : State) (userID redPacketID : Nat) (amount : ℚ)
    (h : (GrabRedPacket env s userID redPacketID).result = .ok amount) :
    ∃ row c, s.packets redPacketID = some row ∧
      amount = row.RemainingAmount / (row.RemainingCount : ℚ) ∧
      (GrabRedPacket env s userID redPacketID).state =
        committed { s with cache := c } userID redPacketID row amount ∧
      row.RemainingCount ≠ 0 := by
  unfold GrabRedPacket at h ⊢
  cases hb : env.bloomExists
  · simp [hb] at h
  cases hl : env.lockOk
  · simp [hb, hl] at h
  cases hs : env.luaOk
  · simp [hb, hl, hs] at h
  rcases hlua : luaScript s.cache redPacketID with ⟨result, cache1⟩
  simp only [hb, hl, hs, hlua, Bool.not_true, Bool.false_eq_true, if_false] at h ⊢
  by_cases h1 : result = -1
  · simp [h1] at h
  by_cases h2 : result = -2
  · simp only [h1, h2, if_false, if_true] at h ⊢
    have h2' : (-2 : Int) = -1 ↔ False := by decide
    simp only [h2', if_false] at h ⊢
    cases hr : readPacket env.firstReadOk { s with cache := cache1 } redPacketID with
    | none => simp [hr] at h
    | some rp =>
      simp only [hr] at h ⊢
      obtain ⟨_, row, hrow, ha, hst, hne⟩ := guardStock_ok env _ _ userID redPacketID amount h
      exact ⟨row, _, hrow, ha, hst, hne⟩
  · simp only [h1, h2, if_false] at h ⊢
    obtain ⟨_, row, hrow, ha, hst, hne⟩ := guardStock_ok env _ _ userID redPacketID amount h
    exact ⟨row, _, hrow, ha, hst, hne⟩

/-- A grab that returns an error leaves the packet rows and the log as they were. -/
theorem grab_error (env : Env) (s : State) (userID redPacketID : Nat) (e : GrabError)
    (h : (GrabRedPacket env s userID redPacketID).result = .error e) :
    (GrabRedPacket env s userID redPacketID).state.packets = s.packets ∧
    (GrabRedPacket env s userID redPacketID).state.logs = s.logs := by
  unfold GrabRedPacket at h ⊢
  cases hb : env.bloomExists
  · simp [hb]
  cases hl : env.lockOk
  · simp [hb, hl]
  cases hs : env.luaOk
  · simp [hb, hl, hs]
  rcases hlua : luaScript s.cache redPacketID with ⟨result, cache1⟩
  simp only [hb, hl, hs, hlua, Bool.not_true, Bool.false_eq_true, if_false] at h ⊢
  by_cases h1 : result = -1
  · simp [h1]
  by_cases h2 : result = -2
  · simp only [h1, h2, if_false, if_true] at h ⊢
    have h2' : (-2 : Int) = -1 ↔ False := by decide
    simp only [h2', if_false] at h ⊢
    cases hr : readPacket env.firstReadOk { s with cache := cache1 } redPacketID with
    | none => exact ⟨rfl, rfl⟩
    | some rp =>
      simp only [hr] at h ⊢
      exact guardStock_error env _ _ userID redPacketID e h
  · simp only [h1, h2, if_false] at h ⊢
    exact guardStock_error env _ _ userID redPacketID e h

theorem logSum_append (logs : List RedPacketLog) (l : RedPacketLog) (id : Nat) :
    logSum (logs ++ [l]) id = logSum logs id + (if l.RedPacketID = id then l.Amount else 0) := by
  unfold logSum
  by_cases h : l.RedPacketID = id <;> simp [List.filter_append, List.filter_cons, h]

theorem logCount_append (logs : List RedPacketLog) (l : RedPacketLog) (id : Nat) :
    logCount (logs ++ [l]) id = logCount logs id + (if l.RedPacketID = id then 1 else 0) := by
  unfold logCount
  by_cases h : l.RedPacketID = id <;> simp [List.filter_append, List.filter_cons, h]

/-- C1: a grab that returns `(amount, nil)` leaves the packet row with `remaining_count` one
less and `remaining_amount` less by the returned amount, appends exactly the log row
`(user, packet, amount)`, and changes no other row; so the sum of the logged amounts plus
`remaining_amount`, and the number of log rows plus `remaining_count`, are the same before
and after, for this packet and for every other one. -/
theorem grab_success_conservation (env : Env) (s : State) (userID redPacketID : Nat)
    (amount : ℚ) (h : (GrabRedPacket env s userID redPacketID).result = .ok amount) :
    ∃ row, s.packets redPacketID = some row ∧
      (GrabRedPacket env s userID redPacketID).state.packets redPacketID =
        some { row with RemainingAmount := row.RemainingAmount - amount,
                        RemainingCount := row.RemainingCount - 1 } ∧
      (∀ j, j ≠ redPacketID →
        (GrabRedPacket env s userID redPacketID).state.packets j = s.packets j) ∧
      (GrabRedPacket env s userID redPacketID).state.logs =
        s.logs ++ [⟨userID, redPacketID, amount⟩] ∧
      logSum (GrabRedPacket env s userID redPacketID).state.logs redPacketID +
          (row.RemainingAmount - amount) = logSum s.logs redPacketID + row.RemainingAmount ∧
      logCount (GrabRedPacket env s userID redPacketID).state.logs redPacketID +
          (row.RemainingCount - 1) = logCount s.logs redPacketID + row.RemainingCount ∧
      (∀ j, j ≠ redPacketID →
        logSum (GrabRedPacket env s userID redPacketID).state.logs j = logSum s.logs j ∧
        logCount (GrabRedPacket env s userID redPacketID).state.logs j = logCount s.logs j) := by
  obtain ⟨row, c, hrow, _, hst, _⟩ := grab_ok env s userID redPacketID amount h
  rw [hst]
  refine ⟨row, hrow, ?_, ?_, rfl, ?_, ?_, ?_⟩
  · simp [committed, updatePacket, hrow]
  · intro j hj
    simp [committed, updatePacket, Function.update_noteq hj]
  · simp only [committed, logSum_append]
    simp
  · simp only [committed, logCount_append]
    simp
  · intro j hj
    have hj' : ¬ redPacketID = j := fun e => hj e.symm
    simp [committed, logSum_append, logCount_append, hj']

theorem grab_fresh_single :
    (GrabRedPacket Env.ok (freshState 1 100 1) 7 1).result = .ok 100 := by
  simp [GrabRedPacket, Env.ok, freshState, seeded, luaScript, Cache.GET, readPacket, cacheSet,
    guardStock, allocate, transaction, txBody, shareOf]

/-- C1 at the single-share packet of 100: the grab by user 7 succeeds and conserves. -/
theorem grab_success_conservation_witness :
    (GrabRedPacket Env.ok (freshState 1 100 1) 7 1).result = .ok 100 ∧
    ∃ row, (freshState 1 100 1).packets 1 = some row ∧
      (GrabRedPacket Env.ok (freshState 1 100 1) 7 1).state.packets 1 =
        some { row with RemainingAmount := row.RemainingAmount - 100,
                        RemainingCount := row.RemainingCount - 1 } ∧
      (∀ j, j ≠ 1 →
        (GrabRedPacket Env.ok (freshState 1 100 1) 7 1).state.packets j =
          (freshState 1 100 1).packets j) ∧
      (GrabRedPacket Env.ok (freshState 1 100 1) 7 1).state.logs =
        (freshState 1 100 1).logs ++ [⟨7, 1, 100⟩] ∧
      logSum (GrabRedPacket Env.ok (freshState 1 100 1) 7 1).state.logs 1 +
          (row.RemainingAmount - 100) = logSum (freshState 1 100 1).logs 1 + row.RemainingAmount ∧
      logCount (GrabRedPacket Env.ok (freshState 1 100 1) 7 1).state.logs 1 +
          (row.RemainingCount - 1) =
        logCount (freshState 1 100 1).logs 1 + row.RemainingCount ∧
      (∀ j, j ≠ 1 →
        logSum (GrabRedPacket Env.ok (freshState 1 100 1) 7 1).state.logs j =
          logSum (freshState 1 100 1).logs j ∧
        logCount (GrabRedPacket Env.ok (freshState 1 100 1) 7 1).state.logs j =
          logCount (freshState 1 100 1).logs j) :=
  ⟨grab_fresh_single,
    grab_success_conservation Env.ok (freshState 1 100 1) 7 1 100 grab_fresh_single⟩

/-! ## One grab when no call fails -/

/-- Cache miss with stock in the ledger: the counter is refilled with the count read and the
transaction commits. -/
theorem grab_miss (s : State) (u p : Nat) (row : RedPacket) (hc : s.cache p = none)
    (hrow : s.packets p = some row) (hpos : 0 < row.RemainingCount) :
    GrabRedPacket Env.ok s u p =
      ⟨.ok (row.RemainingAmount / (row.RemainingCount : ℚ)),
        committed { s with cache := s.cache.SET p row.RemainingCount } u p row
          (row.RemainingAmount / (row.RemainingCount : ℚ)),
        some ⟨toInt64 u, toInt64 p, row.RemainingAmount / (row.RemainingCount : ℚ)⟩⟩ := by
  have hpos' : ¬ row.RemainingCount ≤ 0 := by omega
  have hne : row.RemainingCount ≠ 0 := by omega
  simp [GrabRedPacket, Env.ok, luaScript, Cache.GET, readPacket, cacheSet, guardStock, allocate,
    transaction, txBody, committed, hc, hrow, hpos', shareOf_pos row hne]

/-- Cache hit on a counter of at least 2: the counter is decremented and the transaction
commits. -/
theorem grab_hit (s : State) (u p : Nat) (c : Int) (row : RedPacket) (hc : s.cache p = some c)
    (h2 : 2 ≤ c) (hrow : s.packets p = some row) (hne : row.RemainingCount ≠ 0) :
    GrabRedPacket Env.ok s u p =
      ⟨.ok (row.RemainingAmount / (row.RemainingCount : ℚ)),
        committed { s with cache := s.cache.SET p (c - 1) } u p row
          (row.RemainingAmount / (row.RemainingCount : ℚ)),
        some ⟨toInt64 u, toInt64 p, row.RemainingAmount / (row.RemainingCount : ℚ)⟩⟩ := by
  have e1 : ¬ c ≤ 0 := by omega
  have e2 : ¬ c - 1 = -1 := by omega
  have e3 : ¬ c - 1 = -2 := by omega
  have e4 : ¬ c - 1 ≤ 0 := by omega
  simp [GrabRedPacket, Env.ok, luaScript, Cache.GET, Cache.DECR, Cache.SET, readPacket,
    guardStock, allocate, transaction, txBody, committed, hc, hrow, e1, e2, e3, e4,
    shareOf_pos row hne]

/-- Cache hit on a counter of exactly 1: the script returns 0, which the stock guard takes
for an empty packet; the counter stays decremented. -/
theorem grab_hit_one (s : State) (u p : Nat) (hc : s.cache p = some 1) :
    GrabRedPacket Env.ok s u p =
      ⟨.error .empty, { s with cache := s.cache.SET p 0 }, none⟩ := by
  simp [GrabRedPacket, Env.ok, luaScript, Cache.GET, Cache.DECR, Cache.SET, guardStock, hc]

/-- Cache hit on a counter at most 0: the script returns -1 and nothing changes. -/
theorem grab_hit_nonpos (s : State) (u p : Nat) (c : Int) (hc : s.cache p = some c)
    (h0 : c ≤ 0) : GrabRedPacket Env.ok s u p = ⟨.error .empty, s, none⟩ := by
  simp [GrabRedPacket, Env.ok, luaScript, Cache.GET, hc, h0]

/-! ## Sequential grabs on one packet -/

theorem runGrabs_snoc (s : State) (p : Nat) (calls : List (Env × Nat)) (c : Env × Nat) :
    runGrabs s p (calls ++ [c]) = (GrabRedPacket c.1 (runGrabs s p calls) c.2 p).state := by
  simp [runGrabs, List.foldl_append]

theorem progress_step (p u : Nat) (row : RedPacket) (T : ℚ) (N : Int) (hN : 1 ≤ N) (k : Nat)
    (st : State) (h : Progress p row T N k st) :
    Progress p row T N (k + 1) (GrabRedPacket Env.ok st u p).state := by
  have hNq : (N : ℚ) ≠ 0 := by
    have : N ≠ 0 := by omega
    exact_mod_cast this
  unfold Progress at h ⊢
  by_cases hk : (k : Int) ≤ N
  · rw [if_pos hk] at h
    obtain ⟨hrow, hc0, hc1⟩ := h
    by_cases hk0 : k = 0
    · subst hk0
      have hpos : 0 < N - ((0 : Nat) : Int) := by
        simp
        omega
      rw [grab_miss st u p _ (hc0 rfl) hrow hpos]
      have h1 : ((0 + 1 : Nat) : Int) ≤ N := by simpa using hN
      rw [if_pos h1]
      simp [committed, updatePacket, hrow, Cache.SET]
    · have hk1 : 1 ≤ k := Nat.one_le_iff_ne_zero.mpr hk0
      by_cases hlt : (k : Int) < N
      · have h2 : (2 : Int) ≤ N - k + 1 := by omega
        rw [grab_hit st u p _ _ (hc1 hk1) h2 hrow (by simp only; omega)]
        have h1 : ((k + 1 : Nat) : Int) ≤ N := by push_cast; omega
        rw [if_pos h1]
        have hd : ((N : ℚ) - k) ≠ 0 := by
          have : N - (k : Int) ≠ 0 := by omega
          exact_mod_cast this
        refine ⟨?_, by simp, ?_⟩
        · simp only [committed, updatePacket, hrow, Function.update_same, Option.map_some']
          congr 2
          · push_cast
            field_simp
            ring
          · push_cast
            ring
        · intro _
          simp only [committed, Cache.SET, Function.update_same]
          congr 1
          push_cast
          ring
      · have hkN : (k : Int) = N := by omega
        have hc : st.cache p = some 1 := by
          rw [hc1 hk1]
          congr 1
          omega
        rw [grab_hit_one st u p hc]
        have h1 : ¬ ((k + 1 : Nat) : Int) ≤ N := by push_cast; omega
        rw [if_neg h1]
        refine ⟨?_, by simp [Cache.SET]⟩
        simp only [hrow]
        congr 2
        · rw [← hkN]
          push_cast
          ring
        · omega
  · rw [if_neg hk] at h
    obtain ⟨hrow, hc⟩ := h
    rw [grab_hit_nonpos st u p 0 hc (le_refl 0)]
    have h1 : ¬ ((k + 1 : Nat) : Int) ≤ N := by push_cast; omega
    rw [if_neg h1]
    exact ⟨hrow, hc⟩

theorem progress_run (s : State) (p : Nat) (row : RedPacket) (T : ℚ) (N : Int)
    (hc : s.cache p = none) (hrow : s.packets p = some row) (hcnt : row.RemainingCount = N)
    (hamt : row.RemainingAmount = T) (hN : 1 ≤ N) (calls : List (Env × Nat))
    (hok : ∀ c ∈ calls, c.1 = Env.ok) :
    Progress p row T N calls.length (runGrabs s p calls) := by
  induction calls using List.reverseRecOn with
  | nil =>
    have h0 : ((0 : Nat) : Int) ≤ N := by simp; omega
    simp only [List.length_nil, runGrabs, List.foldl_nil, Progress, if_pos h0]
    refine ⟨?_, fun _ => hc, fun h => absurd h (by decide)⟩
    rw [hrow, ← hcnt, ← hamt]
    simp
  | append_singleton calls c ih =>
    have hc1 : c.1 = Env.ok := hok c (by simp)
    have ih' := ih (fun d hd => hok d (by simp [hd]))
    rw [runGrabs_snoc, List.length_append, List.length_singleton, hc1]
    exact progress_step p c.2 row T N hN calls.length _ ih'

/-- What the next failure-free call does in a state described by `Progress`. -/
theorem progress_next (p u : Nat) (row : RedPacket) (T : ℚ) (N : Int) (hN : 1 ≤ N) (k : Nat)
    (st : State) (h : Progress p row T N k st) :
    ((k : Int) < N → (GrabRedPacket Env.ok st u p).result = .ok (T / N)) ∧
    (N ≤ (k : Int) → (GrabRedPacket Env.ok st u p).result = .error .empty ∧
      (GrabRedPacket Env.ok st u p).state.packets = st.packets ∧
      (GrabRedPacket Env.ok st u p).state.logs = st.logs) := by
  have hNq : (N : ℚ) ≠ 0 := by
    have : N ≠ 0 := by omega
    exact_mod_cast this
  unfold Progress at h
  by_cases hk : (k : Int) ≤ N
  · rw [if_pos hk] at h
    obtain ⟨hrow, hc0, hc1⟩ := h
    by_cases hk0 : k = 0
    · subst hk0
      have hpos : 0 < N - ((0 : Nat) : Int) := by
        simp
        omega
      rw [grab_miss st u p _ (hc0 rfl) hrow hpos]
      refine ⟨fun _ => ?_, fun h => ?_⟩
      · simp
      · simp at h
        omega
    · have hk1 : 1 ≤ k := Nat.one_le_iff_ne_zero.mpr hk0
      by_cases hlt : (k : Int) < N
      · have h2 : (2 : Int) ≤ N - k + 1 := by omega
        rw [grab_hit st u p _ _ (hc1 hk1) h2 hrow (by simp only; omega)]
        have hd : ((N : ℚ) - k) ≠ 0 := by
          have : N - (k : Int) ≠ 0 := by omega
          exact_mod_cast this
        refine ⟨fun _ => ?_, fun h => absurd h (by omega)⟩
        simp only
        congr 1
        push_cast
        field_simp
        ring
      · have hkN : (k : Int) = N := by omega
        have hc : st.cache p = some 1 := by
          rw [hc1 hk1]
          congr 1
          omega
        rw [grab_hit_one st u p hc]
        exact ⟨fun h => absurd h hlt, fun _ => ⟨rfl, rfl, rfl⟩⟩
  · rw [if_neg hk] at h
    obtain ⟨_, hc⟩ := h
    rw [grab_hit_nonpos st u p 0 hc (le_refl 0)]
    exact ⟨fun h => absurd (le_of_lt h) hk, fun _ => ⟨rfl, rfl, rfl⟩⟩

/-- C3: on a packet with `remaining_count = N ≥ 1` and no counter in the cache, in a run of
sequential grabs in which no call fails, the call made after `k` earlier ones succeeds when
`k < N`, and when `N ≤ k` it returns "red packet is empty" and leaves the packet rows and
the log as they were: exactly the first `N` calls succeed. -/
theorem exhaustion (s : State) (p : Nat) (row : RedPacket) (N : Int)
    (hc : s.cache p = none) (hrow : s.packets p = some row) (hcnt : row.RemainingCount = N)
    (hN : 1 ≤ N) (calls : List (Env × Nat)) (hok : ∀ c ∈ calls, c.1 = Env.ok) (u : Nat) :
    ((calls.length : Int) < N →
      ∃ a, (GrabRedPacket Env.ok (runGrabs s p calls) u p).result = .ok a) ∧
    (N ≤ (calls.length : Int) →
      (GrabRedPacket Env.ok (runGrabs s p calls) u p).result = .error .empty ∧
      (GrabRedPacket Env.ok (runGrabs s p calls) u p).state.packets =
        (runGrabs s p calls).packets ∧
      (GrabRedPacket Env.ok (runGrabs s p calls) u p).state.logs =
        (runGrabs s p calls).logs) := by
  have hP := progress_run s p row row.RemainingAmount N hc hrow hcnt rfl hN calls hok
  have hnext := progress_next p u row row.RemainingAmount N hN calls.length _ hP
  exact ⟨fun h => ⟨_, hnext.1 h⟩, hnext.2⟩

theorem two_calls_ok : ∀ c ∈ [(Env.ok, 1), (Env.ok, 2)], c.1 = Env.ok := by
  intro c hmem
  simp only [List.mem_cons, List.mem_singleton, List.not_mem_nil, or_false] at hmem
  rcases hmem with h | h <;> rw [h]

theorem three_calls_ok :
    ∀ c ∈ [(Env.ok, 1), (Env.ok, 2), (Env.ok, 3)], c.1 = Env.ok := by
  intro c hmem
  simp only [List.mem_cons, List.mem_singleton, List.not_mem_nil, or_false] at hmem
  rcases hmem with h | h | h <;> rw [h]

/-- C3 on the packet of 30 in 3 shares: after the grabs of users 1 and 2 the grab of user 3
still succeeds; after the grabs of users 1, 2 and 3 the grab of user 4 returns "red packet is
empty" and leaves the ledger alone. -/
theorem exhaustion_witness :
    (freshState 2 30 3).cache 2 = none ∧
    (freshState 2 30 3).packets 2 = some (seeded 30 3) ∧
    (∃ a, (GrabRedPacket Env.ok
      (runGrabs (freshState 2 30 3) 2 [(Env.ok, 1), (Env.ok, 2)]) 3 2).result = .ok a) ∧
    (GrabRedPacket Env.ok
      (runGrabs (freshState 2 30 3) 2 [(Env.ok, 1), (Env.ok, 2), (Env.ok, 3)]) 4 2).result
        = .error .empty ∧
    (GrabRedPacket Env.ok
      (runGrabs (freshState 2 30 3) 2 [(Env.ok, 1), (Env.ok, 2), (Env.ok, 3)]) 4 2).state.packets
        = (runGrabs (freshState 2 30 3) 2 [(Env.ok, 1), (Env.ok, 2), (Env.ok, 3)]).packets ∧
    (GrabRedPacket Env.ok
      (runGrabs (freshState 2 30 3) 2 [(Env.ok, 1), (Env.ok, 2), (Env.ok, 3)]) 4 2).state.logs
        = (runGrabs (freshState 2 30 3) 2 [(Env.ok, 1), (Env.ok, 2), (Env.ok, 3)]).logs :=
  ⟨rfl, by simp [freshState],
    (exhaustion (freshState 2 30 3) 2 (seeded 30 3) 3 rfl (by simp [freshState]) rfl
      (by decide) [(Env.ok, 1), (Env.ok, 2)] two_calls_ok 3).1 (by decide),
    (exhaustion (freshState 2 30 3) 2 (seeded 30 3) 3 rfl (by simp [freshState]) rfl
      (by decide) [(Env.ok, 1), (Env.ok, 2), (Env.ok, 3)] three_calls_ok 4).2 (by decide)⟩

/-- C4: on a packet with `remaining_amount = T`, `remaining_count = N ≥ 1` and no counter in
the cache, in a failure-free run of sequential grabs every one of the first `N` calls returns
exactly `T / N`; the `N`-th returns exactly the `remaining_amount` it read, on a row of
`remaining_count = 1`, and leaves `remaining_amount = 0` and `remaining_count = 0`. -/
theorem equal_share (s : State) (p : Nat) (row : RedPacket) (T : ℚ) (N : Int)
    (hc : s.cache p = none) (hrow : s.packets p = some row) (hcnt : row.RemainingCount = N)
    (hamt : row.RemainingAmount = T) (hN : 1 ≤ N) (calls : List (Env × Nat))
    (hok : ∀ c ∈ calls, c.1 = Env.ok) (u : Nat) (hlt : (calls.length : Int) < N) :
    (GrabRedPacket Env.ok (runGrabs s p calls) u p).result = .ok (T / N) ∧
    ((calls.length : Int) + 1 = N →
      (∃ r, (runGrabs s p calls).packets p = some r ∧ r.RemainingCount = 1 ∧
        (GrabRedPacket Env.ok (runGrabs s p calls) u p).result = .ok r.RemainingAmount) ∧
      ∃ r, (GrabRedPacket Env.ok (runGrabs s p calls) u p).state.packets p = some r ∧
        r.RemainingAmount = 0 ∧ r.RemainingCount = 0) := by
  have hNq : (N : ℚ) ≠ 0 := by
    have : N ≠ 0 := by omega
    exact_mod_cast this
  have hP := progress_run s p row T N hc hrow hcnt hamt hN calls hok
  have hres := (progress_next p u row T N hN calls.length _ hP).1 hlt
  have hS := progress_step p u row T N hN calls.length _ hP
  refine ⟨hres, fun hlast => ⟨?_, ?_⟩⟩
  · unfold Progress at hP
    rw [if_pos (le_of_lt hlt)] at hP
    refine ⟨_, hP.1, by simp only; omega, ?_⟩
    rw [hres]
    congr 1
    have hk : ((calls.length : Nat) : ℚ) = (N : ℚ) - 1 := by
      have : ((calls.length : Nat) : Int) = N - 1 := by omega
      exact_mod_cast this
    simp only [hk]
    field_simp
    ring
  · unfold Progress at hS
    have h1 : ((calls.length + 1 : Nat) : Int) ≤ N := by push_cast; omega
    rw [if_pos h1] at hS
    refine ⟨_, hS.1, ?_, ?_⟩
    · have hk : ((calls.length + 1 : Nat) : ℚ) = (N : ℚ) := by
        have : ((calls.length + 1 : Nat) : Int) = N := by push_cast; omega
        exact_mod_cast this
      simp only [hk]
      field_simp
    · simp only
      push_cast
      omega

/-- C4 on the packet of 30 in 3 shares: after the grabs of users 1 and 2 the grab of user 3
returns 10, which is all that was left, and empties the packet. -/
theorem equal_share_witness :
    (GrabRedPacket Env.ok
      (runGrabs (freshState 2 30 3) 2 [(Env.ok, 1), (Env.ok, 2)]) 3 2).result
        = .ok ((30 : ℚ) / ((3 : Int) : ℚ)) ∧
    (∃ r, (runGrabs (freshState 2 30 3) 2 [(Env.ok, 1), (Env.ok, 2)]).packets 2 = some r ∧
      r.RemainingCount = 1 ∧
      (GrabRedPacket Env.ok
        (runGrabs (freshState 2 30 3) 2 [(Env.ok, 1), (Env.ok, 2)]) 3 2).result
          = .ok r.RemainingAmount) ∧
    ∃ r, (GrabRedPacket Env.ok
        (runGrabs (freshState 2 30 3) 2 [(Env.ok, 1), (Env.ok, 2)]) 3 2).state.packets 2
          = some r ∧
      r.RemainingAmount = 0 ∧ r.RemainingCount = 0 :=
  ⟨(equal_share (freshState 2 30 3) 2 (seeded 30 3) 30 3 rfl (by simp [freshState]) rfl rfl
      (by decide) [(Env.ok, 1), (Env.ok, 2)] two_calls_ok 3 (by decide)).1,
    (equal_share (freshState 2 30 3) 2 (seeded 30 3) 30 3 rfl (by simp [freshState]) rfl rfl
      (by decide) [(Env.ok, 1), (Env.ok, 2)] two_calls_ok 3 (by decide)).2 (by decide)⟩

/-! ## The stock guard and the counter -/

/-- C5 as stated fails at counter 1: on a packet with one share left and counter 1 the script
returns 0, the stock guard answers "red packet is empty", nothing is granted, and the
counter is left at 0. -/
theorem counter_one_rejected :
    (GrabRedPacket Env.ok (stateWith 1 (some 1) (seeded 100 1) []) 7 1).result
      = .error .empty ∧
    (GrabRedPacket Env.ok (stateWith 1 (some 1) (seeded 100 1) []) 7 1).result ≠ .ok 100 ∧
    (GrabRedPacket Env.ok (stateWith 1 (some 1) (seeded 100 1) []) 7 1).state.cache 1
      = some 0 ∧
    (GrabRedPacket Env.ok (stateWith 1 (some 1) (seeded 100 1) []) 7 1).state.logs = [] := by
  have hc : (stateWith 1 (some 1) (seeded 100 1) []).cache 1 = some 1 := by simp [stateWith]
  rw [grab_hit_one _ 7 1 hc]
  refine ⟨rfl, ?_, ?_, rfl⟩
  · intro h
    cases h
  · simp [Cache.SET]

/-- C5 amended: with a counter `c ≥ 2` (the script returns `c - 1 ≥ 1`) and a row of
`remaining_count ≥ 1`, when no call fails the grab succeeds and returns
`remaining_amount / remaining_count`; with `remaining_count = 1` that is exactly
`remaining_amount`. -/
theorem counter_two_admits (s : State) (u p : Nat) (c : Int) (row : RedPacket)
    (hc : s.cache p = some c) (h2 : 2 ≤ c) (hrow : s.packets p = some row)
    (hcnt : 1 ≤ row.RemainingCount) :
    (GrabRedPacket Env.ok s u p).result =
      .ok (row.RemainingAmount / (row.RemainingCount : ℚ)) ∧
    (row.RemainingCount = 1 → (GrabRedPacket Env.ok s u p).result = .ok row.RemainingAmount) ∧
    (GrabRedPacket Env.ok s u p).state.cache p = some (c - 1) := by
  rw [grab_hit s u p c row hc h2 hrow (by omega)]
  refine ⟨rfl, fun h1 => ?_, ?_⟩
  · simp [h1]
  · simp [committed, Cache.SET]

/-- C5 amended, on counter 2 and the last share of 100. -/
theorem counter_two_admits_witness :
    (GrabRedPacket Env.ok (stateWith 1 (some 2) (seeded 100 1) []) 7 1).result =
      .ok ((seeded 100 1).RemainingAmount / ((seeded 100 1).RemainingCount : ℚ)) ∧
    ((seeded 100 1).RemainingCount = 1 →
      (GrabRedPacket Env.ok (stateWith 1 (some 2) (seeded 100 1) []) 7 1).result =
        .ok (seeded 100 1).RemainingAmount) ∧
    (GrabRedPacket Env.ok (stateWith 1 (some 2) (seeded 100 1) []) 7 1).state.cache 1 =
      some (2 - 1) :=
  counter_two_admits (stateWith 1 (some 2) (seeded 100 1) []) 7 1 2 (seeded 100 1)
    (by simp [stateWith]) (by decide) (by simp [stateWith]) (by decide)

/-- C6 at counter 2 over a spent row (`remaining_count = 0`): the script returns 1, the row
re-read is not checked, the quotient of line 103 is no amount and the `UPDATE` is refused.
The grab answers "red packet update failed", not "red packet is empty"; the ledger is as
before, and the counter, incremented inside the transaction body and again after it, ends
at 3 instead of going back to 2. The same happens when the update fails for another
reason. -/
theorem allocation_unguarded :
    (GrabRedPacket Env.ok (stateWith 1 (some 2) spent [⟨7, 1, 100⟩]) 8 1).result
      = .error .updateFailed ∧
    (GrabRedPacket Env.ok (stateWith 1 (some 2) spent [⟨7, 1, 100⟩]) 8 1).result
      ≠ .error .empty ∧
    (GrabRedPacket Env.ok (stateWith 1 (some 2) spent [⟨7, 1, 100⟩]) 8 1).state.cache 1
      = some 3 ∧
    ((GrabRedPacket Env.ok (stateWith 1 (some 2) spent [⟨7, 1, 100⟩]) 8 1).state.packets 1).map
      (fun r => r.RemainingCount) = some 0 ∧
    (GrabRedPacket Env.ok (stateWith 1 (some 2) spent [⟨7, 1, 100⟩]) 8 1).state.logs.length
      = 1 ∧
    (GrabRedPacket { Env.ok with updateOk := false }
      (stateWith 1 (some 2) spent [⟨7, 1, 100⟩]) 8 1).result = .error .updateFailed ∧
    (GrabRedPacket { Env.ok with updateOk := false }
      (stateWith 1 (some 2) spent [⟨7, 1, 100⟩]) 8 1).state.cache 1 = some 3 := by
  refine ⟨?_, ?_, ?_, ?_, ?_, ?_, ?_⟩ <;>
    simp [GrabRedPacket, Env.ok, luaScript, Cache.GET, Cache.DECR, readPacket, guardStock,
      allocate, transaction, txBody, cacheIncr, Cache.INCR, stateWith, shareOf, spent]

/-- C7 at counter 3: when the packet update is refused, and likewise when the log insert is
refused, the grab returns an error and the ledger is as before, but the counter ends at 4:
the rollback increment runs inside the transaction body and once more after it. When only
the commit fails, the single increment brings the counter back to 3. -/
theorem rollback_twice :
    (GrabRedPacket { Env.ok with updateOk := false }
      (stateWith 1 (some 3) oneTaken [⟨1, 1, 10⟩]) 2 1).result = .error .updateFailed ∧
    (GrabRedPacket { Env.ok with updateOk := false }
      (stateWith 1 (some 3) oneTaken [⟨1, 1, 10⟩]) 2 1).state.packets 1 = some oneTaken ∧
    (GrabRedPacket { Env.ok with updateOk := false }
      (stateWith 1 (some 3) oneTaken [⟨1, 1, 10⟩]) 2 1).state.logs = [⟨1, 1, 10⟩] ∧
    (GrabRedPacket { Env.ok with updateOk := false }
      (stateWith 1 (some 3) oneTaken [⟨1, 1, 10⟩]) 2 1).state.cache 1 = some 4 ∧
    (GrabRedPacket { Env.ok with createOk := false }
      (stateWith 1 (some 3) oneTaken [⟨1, 1, 10⟩]) 2 1).result = .error .logFailed ∧
    (GrabRedPacket { Env.ok with createOk := false }
      (stateWith 1 (some 3) oneTaken [⟨1, 1, 10⟩]) 2 1).state.packets 1 = some oneTaken ∧
    (GrabRedPacket { Env.ok with createOk := false }
      (stateWith 1 (some 3) oneTaken [⟨1, 1, 10⟩]) 2 1).state.logs = [⟨1, 1, 10⟩] ∧
    (GrabRedPacket { Env.ok with createOk := false }
      (stateWith 1 (some 3) oneTaken [⟨1, 1, 10⟩]) 2 1).state.cache 1 = some 4 ∧
    (GrabRedPacket { Env.ok with commitOk := false }
      (stateWith 1 (some 3) oneTaken [⟨1, 1, 10⟩]) 2 1).result = .error .txFailed ∧
    (GrabRedPacket { Env.ok with commitOk := false }
      (stateWith 1 (some 3) oneTaken [⟨1, 1, 10⟩]) 2 1).state.cache 1 = some 3 := by
  refine ⟨?_, ?_, ?_, ?_, ?_, ?_, ?_, ?_, ?_, ?_⟩ <;>
    simp [GrabRedPacket, Env.ok, luaScript, Cache.GET, Cache.DECR, readPacket, guardStock,
      allocate, transaction, txBody, cacheIncr, Cache.INCR, stateWith, shareOf, oneTaken]

/-- C8 as stated fails on the packet of 20 in 2 shares: after the successful grab on the
cache miss the counter is 2, the count read at the refill, neither 1 nor 0. -/
theorem refill_not_decremented :
    (GrabRedPacket Env.ok (freshState 4 20 2) 9 4).result = .ok 10 ∧
    (GrabRedPacket Env.ok (freshState 4 20 2) 9 4).state.cache 4 = some 2 ∧
    ¬ ((GrabRedPacket Env.ok (freshState 4 20 2) 9 4).state.cache 4 = some 1 ∨
       (GrabRedPacket Env.ok (freshState 4 20 2) 9 4).state.cache 4 = some 0) := by
  have hrow : (freshState 4 20 2).packets 4 = some (seeded 20 2) := by simp [freshState]
  have hres : (GrabRedPacket Env.ok (freshState 4 20 2) 9 4).state.cache 4 = some 2 := by
    rw [grab_miss _ 9 4 (seeded 20 2) rfl hrow (by decide)]
    simp [committed, Cache.SET, seeded]
  refine ⟨?_, hres, ?_⟩
  · rw [grab_miss _ 9 4 (seeded 20 2) rfl hrow (by decide)]
    simp only [seeded]
    norm_num
  · rw [hres]
    simp

/-- C8 amended: when the counter is absent and the row has `remaining_count = c ≥ 1`, after a
successful grab whose refill write took effect the counter exists and its value is `c`, the
count read at the refill, which is one more than the new `remaining_count`. -/
theorem refill_value (env : Env) (s : State) (u p : Nat) (row : RedPacket) (c : Int)
    (amount : ℚ) (hc : s.cache p = none) (hrow : s.packets p = some row)
    (hcnt : row.RemainingCount = c) (hpos : 1 ≤ c) (hset : env.setOk = true)
    (h : (GrabRedPacket env s u p).result = .ok amount) :
    (GrabRedPacket env s u p).state.cache p = some c ∧
    ((GrabRedPacket env s u p).state.packets p).map (fun r => r.RemainingCount + 1) = some c := by
  have _ := hpos
  have hlua : luaScript s.cache p = (-2, s.cache) := by simp [luaScript, Cache.GET, hc]
  have hpk : (GrabRedPacket env s u p).state.packets p =
      some { row with RemainingAmount := row.RemainingAmount - amount,
                      RemainingCount := row.RemainingCount - 1 } := by
    obtain ⟨row', _, hrow', _, hst, _⟩ := grab_ok env s u p amount h
    have hrr : row' = row := by
      rw [hrow] at hrow'
      exact (Option.some.inj hrow').symm
    rw [hst, hrr]
    simp [committed, updatePacket, hrow]
  refine ⟨?_, ?_⟩
  · unfold GrabRedPacket at h ⊢
    cases hb : env.bloomExists
    · simp [hb] at h
    cases hl : env.lockOk
    · simp [hb, hl] at h
    cases hs : env.luaOk
    · simp [hb, hl, hs] at h
    have h2' : (-2 : Int) = -1 ↔ False := by decide
    simp only [hb, hl, hs, hlua, Bool.not_true, Bool.false_eq_true, if_false, h2', if_true]
      at h ⊢
    cases hr : readPacket env.firstReadOk { s with cache := s.cache } p with
    | none => simp [hr] at h
    | some rp =>
      have hrp : rp = row := by
        unfold readPacket at hr
        cases hk : env.firstReadOk <;> simp [hk] at hr
        rw [hrow] at hr
        exact (Option.some.inj hr).symm
      simp only [hr] at h ⊢
      obtain ⟨_, row', _, _, hst, _⟩ := guardStock_ok env _ _ u p amount h
      rw [hst, hrp]
      simp [committed, cacheSet, hset, Cache.SET, hcnt]
  · rw [hpk]
    simp [hcnt]

/-- C8 amended, on the packet of 20 in 2 shares: the counter is 2 after the first grab. -/
theorem refill_value_witness :
    (GrabRedPacket Env.ok (freshState 4 20 2) 9 4).state.cache 4 = some 2 ∧
    ((GrabRedPacket Env.ok (freshState 4 20 2) 9 4).state.packets 4).map
      (fun r => r.RemainingCount + 1) = some 2 :=
  refill_value Env.ok (freshState 4 20 2) 9 4 (seeded 20 2) 2 10 rfl (by simp [freshState])
    rfl (by decide) rfl
    (by
      rw [grab_miss _ 9 4 (seeded 20 2) rfl (by simp [freshState]) (by decide)]
      simp only [seeded]
      norm_num)

/-- One grab, whatever its call outcomes, user and packet, keeps `CountSound`: a failed grab
leaves the ledger alone, a grab on another packet touches neither the row nor the log rows
of `p`, and a successful grab on `p` has read a count that is not 0. -/
theorem countSound_step (env : Env) (st : State) (u q p : Nat) (N : Int)
    (h : CountSound p N st) : CountSound p N (GrabRedPacket env st u q).state := by
  cases hres : (GrabRedPacket env st u q).result with
  | error e =>
    obtain ⟨hp, hl⟩ := grab_error env st u q e hres
    unfold CountSound
    rw [hp, hl]
    exact h
  | ok a =>
    obtain ⟨row, c, hrow, _, hst, hne⟩ := grab_ok env st u q a hres
    obtain ⟨r, hr, h0, hsum⟩ := h
    unfold CountSound
    rw [hst]
    by_cases hq : q = p
    · subst hq
      have hrr : row = r := by
        rw [hrow] at hr
        exact Option.some.inj hr
      subst hrr
      refine ⟨{ row with RemainingAmount := row.RemainingAmount - a,
                         RemainingCount := row.RemainingCount - 1 },
        by simp [committed, updatePacket, hrow], ?_, ?_⟩
      · simp only
        omega
      · simp only [committed, logCount_append, if_true]
        omega
    · have hpq : p ≠ q := fun e => hq e.symm
      refine ⟨r, ?_, h0, ?_⟩
      · simp [committed, updatePacket, Function.update_noteq hpq, hr]
      · simp only [committed, logCount_append, hq, if_false, add_zero]
        exact hsum

theorem countSound_run (p : Nat) (N : Int) (calls : List (Env × Nat × Nat)) :
    ∀ st, CountSound p N st → CountSound p N (runCalls st calls) := by
  induction calls with
  | nil => intro st h; exact h
  | cons c cs ih =>
    intro st h
    simp only [runCalls, List.foldl_cons]
    exact ih _ (countSound_step c.1 st c.2.1 c.2.2 p N h)

/-- C2: from a state in which packet `p` has `remaining_count = N ≥ 1` and no log row, after
any finite sequence of sequential `GrabRedPacket` calls, by any users, on any packets, each
with any outcome of its cache and ledger calls (so each transaction may commit or fail), the
row of `p` has `remaining_count ≥ 0` and the log holds at most `N` rows of `p`; the two add
up to `N`. -/
theorem count_never_negative (s : State) (p : Nat) (row : RedPacket) (N : Int)
    (hrow : s.packets p = some row) (hcnt : row.RemainingCount = N) (hN : 1 ≤ N)
    (hlog : logCount s.logs p = 0) (calls : List (Env × Nat × Nat)) :
    ∃ r, (runCalls s calls).packets p = some r ∧ 0 ≤ r.RemainingCount ∧
      logCount (runCalls s calls).logs p ≤ N ∧
      logCount (runCalls s calls).logs p + r.RemainingCount = N := by
  have h0 : CountSound p N s := ⟨row, hrow, by omega, by omega⟩
  obtain ⟨r, hr, hnn, hsum⟩ := countSound_run p N calls s h0
  exact ⟨r, hr, hnn, by omega, hsum⟩

/-- C2 on the packet of 100 in one share, with the update of the first grab refused and no
failure in the second and third: the second grab takes the only share, the third is admitted
by the counter (left at 3 by the first), reads `remaining_count = 0` and has its update
refused; the count ends at 0 with one log row. -/
theorem count_never_negative_witness :
    (∃ r, (runCalls (freshState 1 100 1)
        [({ Env.ok with updateOk := false }, 1, 1), (Env.ok, 2, 1), (Env.ok, 3, 1)]).packets 1
          = some r ∧ 0 ≤ r.RemainingCount ∧
      logCount (runCalls (freshState 1 100 1)
        [({ Env.ok with updateOk := false }, 1, 1), (Env.ok, 2, 1), (Env.ok, 3, 1)]).logs 1
          ≤ 1 ∧
      logCount (runCalls (freshState 1 100 1)
        [({ Env.ok with updateOk := false }, 1, 1), (Env.ok, 2, 1), (Env.ok, 3, 1)]).logs 1
          + r.RemainingCount = 1) ∧
    ((runCalls (freshState 1 100 1)
        [({ Env.ok with updateOk := false }, 1, 1), (Env.ok, 2, 1), (Env.ok, 3, 1)]).packets
          1).map (fun r => r.RemainingCount) = some 0 ∧
    (GrabRedPacket Env.ok (runCalls (freshState 1 100 1)
        [({ Env.ok with updateOk := false }, 1, 1), (Env.ok, 2, 1)]) 3 1).result
          = .error .updateFailed :=
  ⟨count_never_negative (freshState 1 100 1) 1 (seeded 100 1) 1 (by simp [freshState]) rfl
      (by decide) (by simp [freshState, logCount])
      [({ Env.ok with updateOk := false }, 1, 1), (Env.ok, 2, 1), (Env.ok, 3, 1)],
    by simp [runCalls, GrabRedPacket, Env.ok, luaScript, Cache.GET, Cache.DECR, Cache.SET,
      readPacket, guardStock, allocate, transaction, txBody, cacheSet, cacheIncr, Cache.INCR,
      updatePacket, freshState, seeded, shareOf],
    by simp [runCalls, GrabRedPacket, Env.ok, luaScript, Cache.GET, Cache.DECR, Cache.SET,
      readPacket, guardStock, allocate, transaction, txBody, cacheSet, cacheIncr, Cache.INCR,
      updatePacket, freshState, seeded, shareOf]⟩

/-! ## The retry primitive -/

theorem retryLoop_spec {σ ε : Type} (operation : σ → Option ε × σ) (fuel : Nat) :
    ∀ (i : Nat) (err : Option ε) (backoff : Nat) (s : σ) (attempts : List (Option ε))
      (slept : List Nat),
      ∃ new, (retryLoop neverDone operation fuel i err backoff s attempts slept).attempts
          = attempts ++ new ∧ new.length ≤ fuel ∧
        ((retryLoop neverDone operation fuel i err backoff s attempts slept).err = none ↔
          (none ∈ new ∨ (err = none ∧ fuel = 0))) := by
  induction fuel with
  | zero =>
    intro i err backoff s attempts slept
    refine ⟨[], by simp [retryLoop], by simp, ?_⟩
    cases err <;> simp [retryLoop]
  | succ k ih =>
    intro i err backoff s attempts slept
    rcases hop : operation s with ⟨r, s1⟩
    cases r with
    | none =>
      refine ⟨[none], ?_, by simp, ?_⟩
      · simp [retryLoop, neverDone, hop]
      · simp [retryLoop, neverDone, hop]
    | some e =>
      obtain ⟨new, hnew, hlen, hiff⟩ :=
        ih (i + 1) (some e) (backoff * 2) s1 (attempts ++ [some e]) (slept ++ [backoff])
      refine ⟨some e :: new, ?_, by simp; omega, ?_⟩
      · simp only [retryLoop, neverDone, hop, Bool.false_eq_true, if_false]
        rw [hnew]
        simp
      · simp only [retryLoop, neverDone, hop, Bool.false_eq_true, if_false]
        rw [hiff]
        simp

/-- C10 as stated fails at `max_attempts = 0`: the operation is never invoked, so no
invocation succeeded, and yet nil is returned. -/
theorem retry_zero_attempts :
    (retryWithBackoff neverDone alwaysFails 0 0).err = none ∧
    (retryWithBackoff neverDone alwaysFails 0 0).attempts = [] ∧
    ¬ ((retryWithBackoff neverDone alwaysFails 0 0).err = none ↔
        none ∈ (retryWithBackoff neverDone alwaysFails 0 0).attempts) := by
  simp [retryWithBackoff, retryLoop]

/-- C10 amended: under a context that is never cancelled, `retryWithBackoff(ctx, op, n)`
invokes `op` at most `n` times for every `n`, and for `n ≥ 1` it returns nil if and only if
some invocation of `op` returned nil. -/
theorem retry_monotone {σ ε : Type} (operation : σ → Option ε × σ) (n : Nat) (s : σ) :
    (retryWithBackoff neverDone operation (n : Int) s).attempts.length ≤ n ∧
    (1 ≤ n →
      ((retryWithBackoff neverDone operation (n : Int) s).err = none ↔
        none ∈ (retryWithBackoff neverDone operation (n : Int) s).attempts)) := by
  obtain ⟨new, hnew, hlen, hiff⟩ := retryLoop_spec operation n 0 none 100 s [] []
  have hrun : retryWithBackoff neverDone operation (n : Int) s =
      retryLoop neverDone operation n 0 none 100 s [] [] := by
    simp [retryWithBackoff]
  rw [hrun, hnew]
  refine ⟨by simpa using hlen, fun h1 => ?_⟩
  rw [hiff]
  have hn : ¬ n = 0 := by omega
  simp [hn]

/-- C10 amended, with three attempts on an operation that succeeds on its third invocation:
three invocations, and nil is returned. -/
theorem retry_monotone_witness :
    (retryWithBackoff neverDone failsTwice ((3 : Nat) : Int) 0).attempts.length ≤ 3 ∧
    ((retryWithBackoff neverDone failsTwice ((3 : Nat) : Int) 0).err = none ↔
      none ∈ (retryWithBackoff neverDone failsTwice ((3 : Nat) : Int) 0).attempts) ∧
    (retryWithBackoff neverDone failsTwice ((3 : Nat) : Int) 0).attempts
      = [some "unavailable", some "unavailable", none] ∧
    (retryWithBackoff neverDone failsTwice ((3 : Nat) : Int) 0).slept = [100, 200] :=
  ⟨(retry_monotone failsTwice 3 0).1, (retry_monotone failsTwice 3 0).2 (by decide),
    by simp [retryWithBackoff, retryLoop, neverDone, failsTwice],
    by simp [retryWithBackoff, retryLoop, neverDone, failsTwice]⟩

/-! ## Text of an event: formatting, splitting, parsing -/

theorem digitChar_isDigit (d : Nat) (h : d < 10) : (digitChar d).isDigit = true := by
  interval_cases d <;> decide

theorem digitVal_digitChar (d : Nat) (h : d < 10) : digitVal (digitChar d) = some d := by
  interval_cases d <;> decide

theorem digitChar_ne_comma (d : Nat) (h : d < 10) : digitChar d ≠ ',' := by
  interval_cases d <;> decide

theorem splitOn_append (sep : Char) (xs ys : List Char) (h : sep ∉ xs) :
    splitOn sep (xs ++ sep :: ys) = xs :: splitOn sep ys := by
  induction xs with
  | nil => simp [splitOn]
  | cons c cs ih =>
    have hc : ¬ c = sep := fun e => h (by simp [e])
    have hcs : sep ∉ cs := fun e => h (by simp [e])
    simp [splitOn, hc, ih hcs]

theorem splitOn_nosep (sep : Char) (xs : List Char) (h : sep ∉ xs) :
    splitOn sep xs = [xs] := by
  induction xs with
  | nil => simp [splitOn]
  | cons c cs ih =>
    have hc : ¬ c = sep := fun e => h (by simp [e])
    have hcs : sep ∉ cs := fun e => h (by simp [e])
    simp [splitOn, hc, ih hcs]

theorem fmtNat_chars (n : Nat) : ∀ c ∈ fmtNat n, ∃ d, d < 10 ∧ c = digitChar d := by
  intro c hc
  unfold fmtNat at hc
  by_cases h0 : n = 0
  · simp only [h0, if_true, List.mem_singleton] at hc
    exact ⟨0, by decide, by rw [hc]; decide⟩
  · simp only [h0, if_false, List.mem_map, List.mem_reverse] at hc
    obtain ⟨d, hd, rfl⟩ := hc
    exact ⟨d, Nat.digits_lt_base (by decide) hd, rfl⟩

theorem comma_not_mem_fmtNat (n : Nat) : ',' ∉ fmtNat n := by
  intro h
  obtain ⟨d, hd, e⟩ := fmtNat_chars n ',' h
  exact digitChar_ne_comma d hd e.symm

theorem foldl_digits_ge (ds : List Nat) (a : Nat) :
    a ≤ ds.foldl (fun x d => x * 10 + d) a := by
  induction ds generalizing a with
  | nil => simp
  | cons d ds ih =>
    simp only [List.foldl_cons]
    have := ih (a * 10 + d)
    omega

theorem parseUintLoop_digits (ds : List Nat) (a : Nat) (hd : ∀ d ∈ ds, d < 10)
    (hlt : ds.foldl (fun x d => x * 10 + d) a < 2 ^ 64) :
    parseUintLoop (ds.map digitChar) a = some (ds.foldl (fun x d => x * 10 + d) a) := by
  induction ds generalizing a with
  | nil => simp [parseUintLoop]
  | cons d ds ih =>
    have hd0 : d < 10 := hd d (by simp)
    have hds : ∀ e ∈ ds, e < 10 := fun e he => hd e (by simp [he])
    simp only [List.foldl_cons] at hlt ⊢
    have hstep : a * 10 + d < 2 ^ 64 :=
      lt_of_le_of_lt (foldl_digits_ge ds (a * 10 + d)) hlt
    simp only [List.map_cons, parseUintLoop, digitVal_digitChar d hd0, hstep, if_true]
    exact ih (a * 10 + d) hds hlt

theorem foldl_reverse_digits (n : Nat) :
    (Nat.digits 10 n).reverse.foldl (fun x d => x * 10 + d) 0 = n := by
  rw [List.foldl_reverse]
  have h := Nat.ofDigits_digits 10 n
  rw [Nat.ofDigits_eq_foldr] at h
  have hf : (fun (x y : Nat) => y * 10 + x) = fun (x y : Nat) => ((x : Nat) : Nat) + 10 * y := by
    funext x y
    omega
  rw [hf]
  simpa using h

/-- `ParseUint` reads back the `%d` text of every number below 2^64. -/
theorem ParseUint_fmtNat (n : Nat) (h : n < 2 ^ 64) : ParseUint (fmtNat n) = some n := by
  by_cases h0 : n = 0
  · subst h0
    decide
  · have hne : (Nat.digits 10 n).reverse.map digitChar ≠ [] := by
      simp [Nat.digits_ne_nil_iff_ne_zero, h0]
    have hd : ∀ d ∈ (Nat.digits 10 n).reverse, d < 10 := by
      intro d hd
      exact Nat.digits_lt_base (by decide) (List.mem_reverse.mp hd)
    have hfold := foldl_reverse_digits n
    have hlt : (Nat.digits 10 n).reverse.foldl (fun x d => x * 10 + d) 0 < 2 ^ 64 := by
      rw [hfold]
      exact h
    unfold ParseUint fmtNat
    simp only [h0, if_false, hne]
    rw [parseUintLoop_digits _ 0 hd hlt, hfold]

theorem comma_not_mem_formatFixed2 (a : ℚ) : ',' ∉ formatFixed2 a := by
  have h1 : hundredths a % 100 / 10 < 10 := by omega
  have h2 : hundredths a % 10 < 10 := by omega
  have c1 := digitChar_ne_comma _ h1
  have c2 := digitChar_ne_comma _ h2
  have c3 := comma_not_mem_fmtNat (hundredths a / 100)
  have c4 : ¬ (',' : Char) = '-' := by decide
  have c5 : ¬ (',' : Char) = '.' := by decide
  unfold formatFixed2
  by_cases ha : a < 0 <;>
    simp [ha, c3, c4, c5] <;>
    exact ⟨fun e => c1 e.symm, fun e => c2 e.symm⟩

theorem toInt64_small (x : Nat) (h : x < 2 ^ 63) : toInt64 x = (x : Int) := by
  have h1 : x % 2 ^ 64 = x := Nat.mod_eq_of_lt (by omega)
  unfold toInt64
  rw [h1, if_pos h]

theorem formatInt_natCast (x : Nat) : formatInt (x : Int) = fmtNat x := by
  have h : ¬ ((x : Int) < 0) := by omega
  simp [formatInt, h]

/-- The payload built for ids below 2^63 splits into the three texts it was made of. -/
theorem splitOn_payload (u p : Nat) (a : ℚ) :
    splitOn ',' (producerMessage (u : Int) (p : Int) a).Value =
      [fmtNat u, fmtNat p, formatFixed2 a] := by
  simp only [producerMessage, formatInt_natCast, List.append_assoc, List.singleton_append,
    List.cons_append, List.nil_append]
  rw [splitOn_append ',' _ _ (comma_not_mem_fmtNat u),
    splitOn_append ',' _ _ (comma_not_mem_fmtNat p),
    splitOn_nosep ',' _ (comma_not_mem_formatFixed2 a)]

theorem allocate_ok_event (env : Env) (s : State) (userID redPacketID : Nat) (amount : ℚ)
    (h : (allocate env s userID redPacketID).result = .ok amount) :
    (allocate env s userID redPacketID).event =
      some ⟨toInt64 userID, toInt64 redPacketID, amount⟩ := by
  unfold allocate at h ⊢
  cases hr : readPacket env.secondReadOk s redPacketID with
  | none => simp [hr] at h
  | some row =>
    rcases ht : transaction env s userID redPacketID row (shareOf row) with ⟨r, s1⟩
    cases r with
    | error e => simp [hr, ht] at h
    | ok a =>
      simp only [hr, ht] at h ⊢
      have ha : a = amount := by simpa using h
      rw [ha]

/-- A successful grab hands `(int64(userID), int64(redPacketID), amount)` to `SendToKafka`. -/
theorem grab_ok_event (env : Env) (s : State) (userID redPacketID : Nat) (amount : ℚ)
    (h : (GrabRedPacket env s userID redPacketID).result = .ok amount) :
    (GrabRedPacket env s userID redPacketID).event =
      some ⟨toInt64 userID, toInt64 redPacketID, amount⟩ := by
  have hguard : ∀ (st : State) (result : Int),
      (guardStock env st result userID redPacketID).result = .ok amount →
      (guardStock env st result userID redPacketID).event =
        some ⟨toInt64 userID, toInt64 redPacketID, amount⟩ := by
    intro st result hg
    unfold guardStock at hg ⊢
    by_cases hres : result ≤ 0
    · simp [hres] at hg
    · simp only [hres, if_false] at hg ⊢
      exact allocate_ok_event env st userID redPacketID amount hg
  unfold GrabRedPacket at h ⊢
  cases hb : env.bloomExists
  · simp [hb] at h
  cases hl : env.lockOk
  · simp [hb, hl] at h
  cases hs : env.luaOk
  · simp [hb, hl, hs] at h
  rcases hlua : luaScript s.cache redPacketID with ⟨result, cache1⟩
  simp only [hb, hl, hs, hlua, Bool.not_true, Bool.false_eq_true, if_false] at h ⊢
  by_cases h1 : result = -1
  · simp [h1] at h
  by_cases h2 : result = -2
  · simp only [h1, h2, if_false, if_true] at h ⊢
    have h2' : (-2 : Int) = -1 ↔ False := by decide
    simp only [h2', if_false] at h ⊢
    cases hr : readPacket env.firstReadOk { s with cache := cache1 } redPacketID with
    | none => simp [hr] at h
    | some rp =>
      simp only [hr] at h ⊢
      exact hguard _ _ h
  · simp only [h1, h2, if_false] at h ⊢
    exact hguard _ _ h

/-- A well-formed event for an existing user, with the context alive and the database
answering: the first invocation of `updateUserBalance` credits the amount parsed. -/
theorem process_credit (parseFloat : List Char → Option ℚ) (done : Nat → Bool)
    (db : Nat → DbEnv) (users : Nat → Option User) (value f0 f1 f2 : List Char)
    (u p : Nat) (a : ℚ) (user : User) (hsplit : splitOn ',' value = [f0, f1, f2])
    (h0 : ParseUint f0 = some u) (h1 : ParseUint f1 = some p) (h2 : parseFloat f2 = some a)
    (hd : done 0 = false) (hdb : db 0 = DbEnv.ok) (hrow : users u = some user) :
    (processKafkaMessage parseFloat done db users value).users =
      Function.update users u (some { user with Balance := user.Balance + a }) ∧
    (processKafkaMessage parseFloat done db users value).invocations = 1 := by
  simp [processKafkaMessage, hsplit, h0, h1, h2, retryWithBackoff, retryLoop, hd, hdb,
    updateUserBalance, DbEnv.ok, hrow]

theorem digitChar_ne_dot (d : Nat) (h : d < 10) : digitChar d ≠ '.' := by
  interval_cases d <;> decide

theorem digitChar_ne_sign (d : Nat) (h : d < 10) : digitChar d ≠ '-' ∧ digitChar d ≠ '+' := by
  interval_cases d <;> decide

theorem dot_not_mem_fmtNat (n : Nat) : '.' ∉ fmtNat n := by
  intro h
  obtain ⟨d, hd, e⟩ := fmtNat_chars n '.' h
  exact digitChar_ne_dot d hd e.symm

theorem readDigits_digits (ds : List Nat) (a : Nat) (hd : ∀ d ∈ ds, d < 10) :
    readDigits (ds.map digitChar) a = some (ds.foldl (fun x d => x * 10 + d) a) := by
  induction ds generalizing a with
  | nil => simp [readDigits]
  | cons d ds ih =>
    have hd0 : d < 10 := hd d (by simp)
    have hds : ∀ e ∈ ds, e < 10 := fun e he => hd e (by simp [he])
    simp only [List.map_cons, readDigits, digitVal_digitChar d hd0, List.foldl_cons]
    exact ih (a * 10 + d) hds

theorem readDigits_fmtNat (n : Nat) : readDigits (fmtNat n) 0 = some n := by
  by_cases h0 : n = 0
  · subst h0
    decide
  · have hd : ∀ d ∈ (Nat.digits 10 n).reverse, d < 10 := by
      intro d hd
      exact Nat.digits_lt_base (by decide) (List.mem_reverse.mp hd)
    unfold fmtNat
    simp only [h0, if_false]
    rw [readDigits_digits _ 0 hd, foldl_reverse_digits]

theorem fmtNat_cons (n : Nat) : ∃ d rest, d < 10 ∧ fmtNat n = digitChar d :: rest := by
  cases hf : fmtNat n with
  | nil =>
    exfalso
    unfold fmtNat at hf
    by_cases h0 : n = 0
    · simp [h0] at hf
    · simp [h0] at hf
      exact (Nat.digits_ne_nil_iff_ne_zero.mpr h0) hf
  | cons c rest =>
    obtain ⟨d, hd, e⟩ := fmtNat_chars n c (by simp [hf])
    exact ⟨d, rest, hd, by rw [e]⟩

/-- The plain decimal reader gives back, for every amount, the number its `%.2f` text
denotes. -/
theorem parseDecimal_formatFixed2 (a : ℚ) :
    parseDecimal (formatFixed2 a) = some (roundCents a) := by
  have h1 : hundredths a % 100 / 10 < 10 := by omega
  have h2 : hundredths a % 10 < 10 := by omega
  have hsplit : splitOn '.' (fmtNat (hundredths a / 100) ++
      ['.', digitChar (hundredths a % 100 / 10), digitChar (hundredths a % 10)]) =
      [fmtNat (hundredths a / 100),
        [digitChar (hundredths a % 100 / 10), digitChar (hundredths a % 10)]] := by
    have hno : ('.' : Char) ∉
        [digitChar (hundredths a % 100 / 10), digitChar (hundredths a % 10)] := by
      simp only [List.mem_cons, List.mem_singleton, List.not_mem_nil, or_false, not_or]
      exact ⟨fun e => digitChar_ne_dot _ h1 e.symm, fun e => digitChar_ne_dot _ h2 e.symm⟩
    rw [splitOn_append '.' _ _ (dot_not_mem_fmtNat _), splitOn_nosep '.' _ hno]
  have hfrac : readDigits
      [digitChar (hundredths a % 100 / 10), digitChar (hundredths a % 10)] 0 =
      some (hundredths a % 100) := by
    simp only [readDigits, digitVal_digitChar _ h1, digitVal_digitChar _ h2]
    congr 1
    omega
  have hne : fmtNat (hundredths a / 100) ≠ [] := by
    obtain ⟨d, rest, _, e⟩ := fmtNat_cons (hundredths a / 100)
    simp [e]
  have hval : ((hundredths a / 100 : Nat) : ℚ) + ((hundredths a % 100 : Nat) : ℚ) / 10 ^ 2 =
      (hundredths a : ℚ) / 100 := by
    have hdm : 100 * (hundredths a / 100) + hundredths a % 100 = hundredths a :=
      Nat.div_add_mod _ _
    have hq : (100 : ℚ) * ((hundredths a / 100 : Nat) : ℚ) + ((hundredths a % 100 : Nat) : ℚ)
        = (hundredths a : ℚ) := by exact_mod_cast hdm
    rw [← hq]
    ring
  have hbody : ∀ sign : Bool,
      stripSign (formatFixed2 a) = (sign, fmtNat (hundredths a / 100) ++
        ['.', digitChar (hundredths a % 100 / 10), digitChar (hundredths a % 10)]) →
      parseDecimal (formatFixed2 a) =
        some (if sign then -((hundredths a : ℚ) / 100) else (hundredths a : ℚ) / 100) := by
    intro sign hs
    unfold parseDecimal
    simp only [hs, hsplit, hne, false_and, if_false, readDigits_fmtNat, hfrac,
      List.length_cons, List.length_nil, Option.map_some']
    rw [hval]
  unfold roundCents
  by_cases ha : a < 0
  · rw [if_pos ha]
    have hs : stripSign (formatFixed2 a) = (true, fmtNat (hundredths a / 100) ++
        ['.', digitChar (hundredths a % 100 / 10), digitChar (hundredths a % 10)]) := by
      simp [formatFixed2, ha, stripSign]
    simpa using hbody true hs
  · rw [if_neg ha]
    obtain ⟨d, rest, hd, e⟩ := fmtNat_cons (hundredths a / 100)
    have hs : stripSign (formatFixed2 a) = (false, fmtNat (hundredths a / 100) ++
        ['.', digitChar (hundredths a % 100 / 10), digitChar (hundredths a % 10)]) := by
      simp [formatFixed2, ha, e, stripSign, (digitChar_ne_sign d hd).1,
        (digitChar_ne_sign d hd).2]
    simpa using hbody false hs

/-! ## From the grab to the balance -/

theorem hundredths_of_cents (k : Int) : hundredths ((k : ℚ) / 100) = k.natAbs := by
  have habs : |(k : ℚ) / 100| * 100 = ((k.natAbs : Nat) : ℚ) := by
    rw [abs_div, Nat.cast_natAbs, Int.cast_abs]
    have h100 : |(100 : ℚ)| = 100 := abs_of_pos (by norm_num)
    rw [h100]
    field_simp
  unfold hundredths
  simp only [habs, Nat.floor_natCast, sub_self]
  norm_num

theorem roundCents_of_cents (k : Int) : roundCents ((k : ℚ) / 100) = (k : ℚ) / 100 := by
  unfold roundCents
  rw [hundredths_of_cents, Nat.cast_natAbs, Int.cast_abs]
  by_cases hk : (k : ℚ) < 0
  · have hneg : (k : ℚ) / 100 < 0 := div_neg_of_neg_of_pos hk (by norm_num)
    rw [if_pos hneg, abs_of_neg hk]
    ring
  · have hnn : ¬ (k : ℚ) / 100 < 0 := by
      push_neg at hk ⊢
      exact div_nonneg hk (by norm_num)
    rw [if_neg hnn, abs_of_nonneg (not_lt.mp hk)]

theorem hundredths_third : hundredths (100 / 3) = 3333 := by
  have hf : ⌊|(100 / 3 : ℚ)| * 100⌋₊ = 3333 := by
    rw [Nat.floor_eq_iff (by positivity)]
    norm_num [abs_of_pos]
  unfold hundredths
  simp only [hf]
  norm_num [abs_of_pos]

theorem hundredths_hundred : hundredths 100 = 10000 := by
  have h : (100 : ℚ) = (((10000 : Int) : ℚ)) / 100 := by norm_num
  rw [h, hundredths_of_cents]
  rfl

/-- C11 as stated fails on the packet of 100 in 3 shares: the grab of user 7 returns 100/3,
the payload built for it is `7,1,33.33`, and processing that payload raises the balance of
user 7 from 0 to 33.33, not to 100/3. -/
theorem credit_differs_from_grant :
    (GrabRedPacket Env.ok (freshState 1 100 3) 7 1).result = .ok (100 / 3) ∧
    (GrabRedPacket Env.ok (freshState 1 100 3) 7 1).event = some ⟨7, 1, 100 / 3⟩ ∧
    (producerMessage 7 1 (100 / 3)).Value = "7,1,33.33".toList ∧
    ((processKafkaMessage parseDecimal neverDone dbOk (oneUser 7 0)
        "7,1,33.33".toList).users 7).map (fun r => r.Balance) = some (3333 / 100) ∧
    (3333 / 100 : ℚ) ≠ 0 + 100 / 3 := by
  have hrow : (freshState 1 100 3).packets 1 = some (seeded 100 3) := by simp [freshState]
  have hneg : ¬ ((100 : ℚ) / 3 < 0) := by norm_num
  refine ⟨?_, ?_, ?_, ?_, by norm_num⟩
  · rw [grab_miss _ 7 1 (seeded 100 3) rfl hrow (by decide)]
    simp only [seeded]
    norm_num
  · rw [grab_miss _ 7 1 (seeded 100 3) rfl hrow (by decide)]
    simp only [seeded]
    norm_num [toInt64]
  · simp [producerMessage, formatInt, formatFixed2, hundredths_third, hneg, fmtNat, digitChar]
  · have hsplit : splitOn ',' "7,1,33.33".toList = [['7'], ['1'], "33.33".toList] := by decide
    have hpf : parseDecimal "33.33".toList = some (3333 / 100) := by
      simp [parseDecimal, stripSign, splitOn, readDigits, digitVal, Char.isDigit]
      norm_num
    have hcredit := process_credit parseDecimal neverDone dbOk (oneUser 7 0) _ _ _ _ 7 1
      (3333 / 100) ⟨"user", 0⟩ hsplit (by decide) (by decide) hpf rfl rfl (by simp [oneUser])
    rw [hcredit.1]
    simp

/-- C11 amended: for a successful grab returning `a` for a user and a packet whose ids are
below 2^63, the payload the producer builds, processed on an existing user row (the context
alive, the database answering, `ParseFloat` reading the `%.2f` text as the decimal it
shows), raises that user's balance by `a` rounded to two decimals and touches no other row;
the credit is exactly `a` when `a` is a whole number of hundredths. -/
theorem credit_is_rounded (env : Env) (s : State) (u p : Nat) (a : ℚ)
    (hgrab : (GrabRedPacket env s u p).result = .ok a) (hu : u < 2 ^ 63) (hp : p < 2 ^ 63)
    (parseFloat : List Char → Option ℚ)
    (hpf : parseFloat (formatFixed2 a) = some (roundCents a))
    (done : Nat → Bool) (hd : done 0 = false) (db : Nat → DbEnv) (hdb : db 0 = DbEnv.ok)
    (users : Nat → Option User) (user : User) (hrow : users u = some user) :
    ∃ ev, (GrabRedPacket env s u p).event = some ev ∧
      (processKafkaMessage parseFloat done db users
        (producerMessage ev.userID ev.redPacketID ev.amount).Value).users u =
          some { user with Balance := user.Balance + roundCents a } ∧
      (∀ j, j ≠ u →
        (processKafkaMessage parseFloat done db users
          (producerMessage ev.userID ev.redPacketID ev.amount).Value).users j = users j) ∧
      ((∃ k : Int, a = (k : ℚ) / 100) → roundCents a = a) := by
  refine ⟨_, grab_ok_event env s u p a hgrab, ?_, ?_, ?_⟩
  · simp only [toInt64_small u hu, toInt64_small p hp]
    rw [(process_credit parseFloat done db users _ _ _ _ u p (roundCents a) user
      (splitOn_payload u p a) (ParseUint_fmtNat u (by omega)) (ParseUint_fmtNat p (by omega))
      hpf hd hdb hrow).1]
    simp
  · intro j hj
    simp only [toInt64_small u hu, toInt64_small p hp]
    rw [(process_credit parseFloat done db users _ _ _ _ u p (roundCents a) user
      (splitOn_payload u p a) (ParseUint_fmtNat u (by omega)) (ParseUint_fmtNat p (by omega))
      hpf hd hdb hrow).1]
    simp [Function.update_noteq hj]
  · rintro ⟨k, rfl⟩
    exact roundCents_of_cents k

theorem formatFixed2_hundred : formatFixed2 100 = "100.00".toList := by
  have hneg : ¬ ((100 : ℚ) < 0) := by norm_num
  simp [formatFixed2, hundredths_hundred, hneg, fmtNat, digitChar]

/-- C11 amended, on the single-share packet of 100: the grab of user 7 returns 100 and the
event raises the balance of user 7 by 100. -/
theorem credit_is_rounded_witness :
    ∃ ev, (GrabRedPacket Env.ok (freshState 1 100 1) 7 1).event = some ev ∧
      (processKafkaMessage parseDecimal neverDone dbOk (oneUser 7 0)
        (producerMessage ev.userID ev.redPacketID ev.amount).Value).users 7 =
          some ⟨"user", 0 + roundCents 100⟩ ∧
      (∀ j, j ≠ 7 →
        (processKafkaMessage parseDecimal neverDone dbOk (oneUser 7 0)
          (producerMessage ev.userID ev.redPacketID ev.amount).Value).users j =
            oneUser 7 0 j) ∧
      ((∃ k : Int, (100 : ℚ) = (k : ℚ) / 100) → roundCents 100 = 100) :=
  credit_is_rounded Env.ok (freshState 1 100 1) 7 1 100 grab_fresh_single (by decide)
    (by decide) parseDecimal (parseDecimal_formatFixed2 100) neverDone rfl dbOk rfl (oneUser 7 0)
    ⟨"user", 0⟩ (by simp [oneUser])

/-! ## Partition of an event -/

/-- For a user id below 2^63 the partition of the message is `userID mod 5`. -/
theorem partition_small (u : Nat) (h : u < 2 ^ 63) (p : Int) (a : ℚ) :
    (producerMessage (toInt64 u) p a).Partition = ((u % 5 : Nat) : Int) := by
  rw [toInt64_small u h]
  have ht : Int.tmod (u : Int) 5 = ((u % 5 : Nat) : Int) := (Int.ofNat_tmod u 5).symm
  simp only [producerMessage, ht, toInt32]
  have h5 : u % 5 < 5 := Nat.mod_lt _ (by decide)
  have hm : ((u % 5 : Nat) : Int) % 2 ^ 32 = ((u % 5 : Nat) : Int) := by omega
  rw [hm, if_pos (by omega)]

/-- C12 at user id 2^64 - 1 (what `uint(-1)` is): the grab succeeds, `int64(userID)` is -1,
and the message built for the event has partition -1, while `userID mod 5` is 0; the payload
starts with `-1`, which `ParseUint` refuses, so the consumer drops the event. -/
theorem partition_negative :
    (GrabRedPacket Env.ok (freshState 1 100 1) (2 ^ 64 - 1) 1).event = some ⟨-1, 1, 100⟩ ∧
    (producerMessage (-1) 1 100).Partition = -1 ∧
    (2 ^ 64 - 1) % 5 = 0 ∧
    (producerMessage (-1) 1 100).Value = "-1,1,100.00".toList ∧
    (processKafkaMessage parseDecimal neverDone dbOk (oneUser (2 ^ 64 - 1) 0)
      "-1,1,100.00".toList).invocations = 0 := by
  have hrow : (freshState 1 100 1).packets 1 = some (seeded 100 1) := by simp [freshState]
  refine ⟨?_, by decide, by decide, ?_, ?_⟩
  · rw [grab_miss _ _ 1 (seeded 100 1) rfl hrow (by decide)]
    have h1 : toInt64 (2 ^ 64 - 1) = -1 := by decide
    have h2 : toInt64 1 = 1 := by decide
    simp only [seeded, h1, h2]
    norm_num
  · have hf := formatFixed2_hundred
    simp only [producerMessage, hf]
    simp [formatInt, fmtNat, digitChar]
  · have hsplit : splitOn ',' "-1,1,100.00".toList = ["-1".toList, ['1'], "100.00".toList] := by
      decide
    have h0 : ParseUint "-1".toList = none := by decide
    simp only [processKafkaMessage, hsplit, h0]

/-! ## Events the consumer cannot apply -/

theorem updateUserBalance_absent (env : DbEnv) (users : Nat → Option User) (u p : Nat)
    (a : ℚ) (hrow : users u = none) :
    ∃ e, updateUserBalance env users u p a = (some e, users) := by
  unfold updateUserBalance
  cases hr : env.dbReady
  · exact ⟨.notInitialized, by simp⟩
  · refine ⟨.userNotFound, ?_⟩
    cases hf : env.firstOk <;> simp [hrow]

/-- A well-formed event for a user without a row: every attempt the context allows invokes
`updateUserBalance`, each invocation fails, and the table is left as it was. -/
theorem process_absent (parseFloat : List Char → Option ℚ) (done : Nat → Bool)
    (db : Nat → DbEnv) (users : Nat → Option User) (value f0 f1 f2 : List Char)
    (u p : Nat) (a : ℚ) (hsplit : splitOn ',' value = [f0, f1, f2])
    (h0 : ParseUint f0 = some u) (h1 : ParseUint f1 = some p) (h2 : parseFloat f2 = some a)
    (hrow : users u = none) :
    (processKafkaMessage parseFloat done db users value).users = users ∧
    (∃ e, (processKafkaMessage parseFloat done db users value).outcome = .failed e) ∧
    (processKafkaMessage parseFloat done db users value).invocations ≤ 3 ∧
    ((∀ i, done i = false) →
      (processKafkaMessage parseFloat done db users value).invocations = 3) := by
  obtain ⟨e0, he0⟩ := updateUserBalance_absent (db 0) users u p a hrow
  obtain ⟨e1, he1⟩ := updateUserBalance_absent (db 1) users u p a hrow
  obtain ⟨e2, he2⟩ := updateUserBalance_absent (db 2) users u p a hrow
  cases hd0 : done 0 <;> cases hd1 : done 1 <;> cases hd2 : done 2 <;>
    simp [processKafkaMessage, hsplit, h0, h1, h2, retryWithBackoff, retryLoop, hd0, hd1,
      hd2, he0, he1, he2] <;>
    first
    | exact ⟨0, hd0⟩
    | exact ⟨1, hd1⟩
    | exact ⟨2, hd2⟩

/-- C13 as stated fails: for the event `7,1,100.00` and a table without user 7, under a
context that is not cancelled, `updateUserBalance` is invoked 3 times, not once; the failure
is reported and no row changes. -/
theorem absent_user_three_invocations :
    (processKafkaMessage parseDecimal neverDone dbOk noUser "7,1,100.00".toList).invocations
      = 3 ∧
    (processKafkaMessage parseDecimal neverDone dbOk noUser "7,1,100.00".toList).invocations
      ≠ 1 ∧
    (processKafkaMessage parseDecimal neverDone dbOk noUser "7,1,100.00".toList).users
      = noUser := by
  have hsplit : splitOn ',' "7,1,100.00".toList = [['7'], ['1'], "100.00".toList] := by decide
  have hpf : parseDecimal "100.00".toList = some 100 := by
    simp [parseDecimal, stripSign, splitOn, readDigits, digitVal, Char.isDigit]
  obtain ⟨hu, _, _, h3⟩ := process_absent parseDecimal neverDone dbOk noUser _ _ _ _ 7 1 100
    hsplit (by decide) (by decide) hpf rfl
  have h3' := h3 (fun _ => rfl)
  exact ⟨h3', by rw [h3']; decide, hu⟩

/-- C13 amended: for every well-formed event whose user id has no user row, processing the
event invokes `updateUserBalance` once per attempt of the retry, at most 3 times and exactly
3 times when the context is not cancelled; every invocation fails, the failure is reported
and no user's balance changes. -/
theorem absent_user_retried (parseFloat : List Char → Option ℚ) (done : Nat → Bool)
    (db : Nat → DbEnv) (users : Nat → Option User) (value f0 f1 f2 : List Char)
    (u p : Nat) (a : ℚ) (hsplit : splitOn ',' value = [f0, f1, f2])
    (h0 : ParseUint f0 = some u) (h1 : ParseUint f1 = some p) (h2 : parseFloat f2 = some a)
    (hrow : users u = none) :
    (processKafkaMessage parseFloat done db users value).users = users ∧
    (∃ e, (processKafkaMessage parseFloat done db users value).outcome = .failed e) ∧
    (processKafkaMessage parseFloat done db users value).invocations ≤ 3 ∧
    ((∀ i, done i = false) →
      (processKafkaMessage parseFloat done db users value).invocations = 3) :=
  process_absent parseFloat done db users value f0 f1 f2 u p a hsplit h0 h1 h2 hrow

/-- C13 amended, on the event `11,5,1.00` and a table that holds user 7 only, the context
never cancelled: three invocations, all failing, and the table is unchanged. -/
theorem absent_user_retried_witness :
    (processKafkaMessage parseDecimal neverDone dbOk (oneUser 7 0) "11,5,1.00".toList).users
      = oneUser 7 0 ∧
    (∃ e, (processKafkaMessage parseDecimal neverDone dbOk (oneUser 7 0)
      "11,5,1.00".toList).outcome = .failed e) ∧
    (processKafkaMessage parseDecimal neverDone dbOk (oneUser 7 0)
      "11,5,1.00".toList).invocations ≤ 3 ∧
    (processKafkaMessage parseDecimal neverDone dbOk (oneUser 7 0)
      "11,5,1.00".toList).invocations = 3 :=
  have hsplit : splitOn ',' "11,5,1.00".toList = ["11".toList, ['5'], "1.00".toList] := by
    decide
  have hpf : parseDecimal "1.00".toList = some 1 := by
    simp [parseDecimal, stripSign, splitOn, readDigits, digitVal, Char.isDigit]
  have h := absent_user_retried parseDecimal neverDone dbOk (oneUser 7 0) "11,5,1.00".toList
    "11".toList ['5'] "1.00".toList 11 5 1 hsplit (by decide) (by decide) hpf
    (by simp [oneUser])
  ⟨h.1, h.2.1, h.2.2.1, h.2.2.2 (fun _ => rfl)⟩

theorem parseUintLoop_all (s : List Char) :
    ∀ n m, parseUintLoop s n = some m → s.all Char.isDigit = true := by
  induction s with
  | nil => intro _ _ _; rfl
  | cons c cs ih =>
    intro n m h
    unfold parseUintLoop digitVal at h
    by_cases hc : c.isDigit = true
    · simp [hc] at h
      simp [hc, ih _ _ h.2]
    · simp [hc] at h

/-- `ParseUint` refuses every string that is not a non-empty string of decimal digits. -/
theorem ParseUint_none (s : List Char) (h : isUnsignedDecimal s = false) :
    ParseUint s = none := by
  unfold ParseUint
  by_cases hs : s = []
  · simp [hs]
  · simp only [hs, if_false]
    cases hp : parseUintLoop s 0 with
    | none => rfl
    | some m =>
      have hall := parseUintLoop_all s 0 m hp
      have hne : s.isEmpty = false := by
        cases s with
        | nil => exact absurd rfl hs
        | cons _ _ => rfl
      simp [isUnsignedDecimal, hall, hne] at h

/-- C14: a payload that does not split on `,` into exactly three fields, or whose first or
second field is not an unsigned base-10 integer, or whose third field `ParseFloat` refuses,
makes `processKafkaMessage` return without any invocation of `updateUserBalance` and with
the table `users` as it was. -/
theorem poison_isolated (parseFloat : List Char → Option ℚ) (done : Nat → Bool)
    (db : Nat → DbEnv) (users : Nat → Option User) (value : List Char)
    (h : (splitOn ',' value).length ≠ 3 ∨
      ∃ f0 f1 f2, splitOn ',' value = [f0, f1, f2] ∧
        (isUnsignedDecimal f0 = false ∨ isUnsignedDecimal f1 = false ∨ parseFloat f2 = none)) :
    (processKafkaMessage parseFloat done db users value).invocations = 0 ∧
    (processKafkaMessage parseFloat done db users value).users = users := by
  rcases h with hlen | ⟨f0, f1, f2, hsplit, hbad⟩
  · unfold processKafkaMessage
    rcases hl : splitOn ',' value with _ | ⟨a, _ | ⟨b, _ | ⟨c, _ | ⟨d, l⟩⟩⟩⟩
    · exact ⟨rfl, rfl⟩
    · exact ⟨rfl, rfl⟩
    · exact ⟨rfl, rfl⟩
    · rw [hl] at hlen
      exact absurd rfl hlen
    · exact ⟨rfl, rfl⟩
  · unfold processKafkaMessage
    simp only [hsplit]
    rcases hbad with h0 | h1 | h2
    · rw [ParseUint_none f0 h0]
      exact ⟨rfl, rfl⟩
    · rw [ParseUint_none f1 h1]
      cases ParseUint f0 <;> exact ⟨rfl, rfl⟩
    · rw [h2]
      cases ParseUint f0 <;> cases ParseUint f1 <;> exact ⟨rfl, rfl⟩

/-- C14 on the payloads `7,1` (two fields) and `seven,1,1.00` (first field no number), with a
table holding user 7: no invocation of `updateUserBalance`, table unchanged. -/
theorem poison_isolated_witness :
    ((processKafkaMessage parseDecimal neverDone dbOk (oneUser 7 0) "7,1".toList).invocations
        = 0 ∧
      (processKafkaMessage parseDecimal neverDone dbOk (oneUser 7 0) "7,1".toList).users
        = oneUser 7 0) ∧
    ((processKafkaMessage parseDecimal neverDone dbOk (oneUser 7 0)
        "seven,1,1.00".toList).invocations = 0 ∧
      (processKafkaMessage parseDecimal neverDone dbOk (oneUser 7 0)
        "seven,1,1.00".toList).users = oneUser 7 0) :=
  ⟨poison_isolated parseDecimal neverDone dbOk (oneUser 7 0) "7,1".toList
      (Or.inl (by decide)),
    poison_isolated parseDecimal neverDone dbOk (oneUser 7 0) "seven,1,1.00".toList
      (Or.inr ⟨"seven".toList, ['1'], "1.00".toList, by decide, Or.inl (by decide)⟩)⟩

end RedPacketSystem
